import Mathlib

/-!
Verification development for the eventbrite-dublin-events pipeline
(data_cleaning.py and feature_engineering.py).

Python/pandas values are modelled by the inductive type PyVal below:
Python None is `vnone`, a float NaN (pandas' missing-value marker inside
numeric columns, and the result of failed coercions) is `nan`, datetimes
(pandas Timestamp, tz-naive) are `dt`.  A pandas DataFrame is a list of
named columns, each a list of cells; rows are positional.
-/

namespace EventPipeline

inductive PyVal where
  | vnone
  | nan
  | str (s : String)
  | int (n : Int)
  | float (q : Rat)
  | bool (b : Bool)
  | dt (y : Int) (mo d hh mi ss : Nat)
  | list (l : List PyVal)
  | dict (l : List (String × PyVal))

mutual

/-- Structural equality test on PyVal (Python ==). -/
def pvBeq : PyVal → PyVal → Bool
  | .vnone, .vnone => true
  | .nan, .nan => true
  | .str a, .str b => a == b
  | .int a, .int b => a == b
  | .float a, .float b => a == b
  | .bool a, .bool b => a == b
  | .dt y1 a1 b1 c1 d1 e1, .dt y2 a2 b2 c2 d2 e2 =>
      y1 == y2 && a1 == a2 && b1 == b2 && c1 == c2 && d1 == d2 && e1 == e2
  | .list a, .list b => pvListBeq a b
  | .dict a, .dict b => pvDictBeq a b
  | _, _ => false

def pvListBeq : List PyVal → List PyVal → Bool
  | [], [] => true
  | a :: as_, b :: bs => pvBeq a b && pvListBeq as_ bs
  | _, _ => false

def pvDictBeq : List (String × PyVal) → List (String × PyVal) → Bool
  | [], [] => true
  | (k1, v1) :: as_, (k2, v2) :: bs => k1 == k2 && pvBeq v1 v2 && pvDictBeq as_ bs
  | _, _ => false

end

/-- Cells that pandas isna regards as missing: None and NaN (and NaT,
which we model as vnone since both map to None-like behaviour). -/
def isNA : PyVal → Bool
  | .vnone => true
  | .nan => true
  | _ => false

/-- Python truthiness, used by extract_tags via the test `if name:`. -/
def pyTruthy : PyVal → Bool
  | .vnone => false
  | .nan => true
  | .str s => s != ""
  | .int n => n != 0
  | .float q => q != 0
  | .bool b => b
  | .dt _ _ _ _ _ _ => true
  | .list l => !l.isEmpty
  | .dict l => !l.isEmpty

/-- Lookup in a Python dict literal: d.get(k) semantics (absent gives None,
modelled as Option.none here so that callers can distinguish). -/
def dictGet (d : List (String × PyVal)) (k : String) : Option PyVal :=
  (d.find? (fun kv => kv.1 == k)).map (fun kv => kv.2)

/-- Lowercase a string characterwise (Python str.lower on ASCII data). -/
def strLower (s : String) : String := String.mk (s.data.map Char.toLower)

/-- Uppercase a string characterwise (Python str.upper on ASCII data). -/
def strUpper (s : String) : String := String.mk (s.data.map Char.toUpper)

def isWsChar (c : Char) : Bool := c = ' ' || c = '\t' || c = '\n' || c = '\r'

/-- Python str.strip: drop leading and trailing whitespace. -/
def strStrip (s : String) : String :=
  String.mk (((s.data.dropWhile isWsChar).reverse.dropWhile isWsChar).reverse)

mutual

/-- Python str() of a value. -/
def pyStr : PyVal → String
  | .str s => s
  | v => pyRepr v

/-- Python repr() of a value (approximate; enough for the shapes the
pipeline feeds to str(), which are scalars and flat lists of strings). -/
def pyRepr : PyVal → String
  | .vnone => "None"
  | .nan => "nan"
  | .str s => "\x27" ++ s ++ "\x27"
  | .int n => toString n
  | .float q => toString q
  | .bool b => if b then "True" else "False"
  | .dt y mo d hh mi ss =>
      toString y ++ "-" ++ toString mo ++ "-" ++ toString d ++ " " ++
      toString hh ++ ":" ++ toString mi ++ ":" ++ toString ss
  | .list l => "[" ++ String.intercalate ", " (pyReprList l) ++ "]"
  | .dict l => "\x7b" ++ String.intercalate ", " (pyReprDict l) ++ "\x7d"

def pyReprList : List PyVal → List String
  | [] => []
  | v :: rest => pyRepr v :: pyReprList rest

def pyReprDict : List (String × PyVal) → List String
  | [] => []
  | (k, v) :: rest => ("\x27" ++ k ++ "\x27: " ++ pyRepr v) :: pyReprDict rest

end

/-!  Dates and times.  Pandas Timestamps are modelled by their civil
fields; arithmetic goes through days-from-civil (Gregorian, proleptic). -/
def isLeapYear (y : Int) : Bool := (y % 4 == 0 && y % 100 != 0) || y % 400 == 0

def daysInMonth (y : Int) (m : Nat) : Nat :=
  if m = 2 then (if isLeapYear y then 29 else 28)
  else if m = 4 ∨ m = 6 ∨ m = 9 ∨ m = 11 then 30
  else 31

/-- Days since 1970-01-01 of a civil date (Howard Hinnant's algorithm). -/
def daysFromCivil (y : Int) (m d : Nat) : Int :=
  let y2 : Int := if m ≤ 2 then y - 1 else y
  let era : Int := (if y2 ≥ 0 then y2 else y2 - 399) / 400
  let yoe : Int := y2 - era * 400
  let mp : Int := ((m : Int) + 9) % 12
  let doy : Int := (153 * mp + 2) / 5 + (d : Int) - 1
  let doe : Int := yoe * 365 + yoe / 4 - yoe / 100 + doy
  era * 146097 + doe - 719468

/-- Seconds since the epoch of a (tz-naive) timestamp. -/
def dtSeconds (y : Int) (mo d hh mi ss : Nat) : Int :=
  daysFromCivil y mo d * 86400 + (hh : Int) * 3600 + (mi : Int) * 60 + (ss : Int)

/-- Full English day name, as pandas Series.dt.day_name returns.
1970-01-01 was a Thursday. -/
def dayNameOf (y : Int) (mo d : Nat) : String :=
  let wd := (daysFromCivil y mo d + 3) % 7
  if wd = 0 then "Monday" else if wd = 1 then "Tuesday" else if wd = 2 then "Wednesday"
  else if wd = 3 then "Thursday" else if wd = 4 then "Friday" else if wd = 5 then "Saturday"
  else "Sunday"

/-- Parse a run of decimal digits into a Nat; fails on empty or non-digits. -/
def parseDigits (cs : List Char) : Option Nat :=
  if cs = [] then none
  else cs.foldl (fun acc c =>
    match acc with
    | none => none
    | some n => if c.isDigit then some (n * 10 + (c.toNat - 48)) else none) (some 0)

def splitOnChar (sep : Char) (cs : List Char) : List (List Char) :=
  match cs with
  | [] => [[]]
  | c :: rest =>
    let r := splitOnChar sep rest
    if c = sep then [] :: r
    else match r with
      | [] => [[c]]
      | h :: t => (c :: h) :: t

/-- Parse "YYYY-MM-DD" with range validation. -/
def parseDatePart (cs : List Char) : Option (Int × Nat × Nat) :=
  match splitOnChar '-' cs with
  | [ys, ms, ds] =>
    match parseDigits ys, parseDigits ms, parseDigits ds with
    | some y, some m, some d =>
      if 1 ≤ m ∧ m ≤ 12 ∧ 1 ≤ d ∧ d ≤ daysInMonth (y : Int) m then some ((y : Int), m, d) else none
    | _, _, _ => none
  | _ => none

/-- Parse "HH:MM:SS" or "HH:MM" with range validation. -/
def parseTimePart (cs : List Char) : Option (Nat × Nat × Nat) :=
  match splitOnChar ':' cs with
  | [hs, ms, ss] =>
    match parseDigits hs, parseDigits ms, parseDigits ss with
    | some h, some m, some s =>
      if h ≤ 23 ∧ m ≤ 59 ∧ s ≤ 59 then some (h, m, s) else none
    | _, _, _ => none
  | [hs, ms] =>
    match parseDigits hs, parseDigits ms with
    | some h, some m => if h ≤ 23 ∧ m ≤ 59 then some (h, m, 0) else none
    | _, _ => none
  | _ => none

/-- Parse the datetime string shapes the pipeline feeds to pd.to_datetime:
"YYYY-MM-DD", "YYYY-MM-DD HH:MM:SS", "YYYY-MM-DDTHH:MM:SS", with an
optional UTC marker "Z" or "+00:00" (pd.to_datetime(..., utc=True)
followed by tz_convert(None) keeps the clock fields unchanged for UTC).
Other strings are treated as unparseable. -/
def parseDateTimeStr (s : String) : Option (Int × Nat × Nat × Nat × Nat × Nat) :=
  let cs0 := (strStrip s).data
  let cs := if cs0.reverse.take 1 = ['Z'] then cs0.dropLast
            else if cs0.reverse.take 6 = "00:00+".data.reverse then
              (cs0.reverse.drop 6).reverse
            else cs0
  match cs.span (fun c => !(c = ' ' || c = 'T')) with
  | (datePart, []) =>
    match parseDatePart datePart with
    | some (y, mo, d) => some (y, mo, d, 0, 0, 0)
    | none => none
  | (datePart, _ :: timePart) =>
    match parseDatePart datePart, parseTimePart timePart with
    | some (y, mo, d), some (hh, mi, ss) => some (y, mo, d, hh, mi, ss)
    | _, _ => none

/-- Cell-level pd.to_datetime with errors="coerce": strings are parsed
(unparseable gives NaT, modelled vnone), datetimes pass through, missing
values give NaT.  Numeric epoch interpretation is not modelled; the
pipeline only feeds strings, datetimes and missing values here. -/
def to_datetime_cell (v : PyVal) : PyVal :=
  match v with
  | .str s =>
    match parseDateTimeStr s with
    | some (y, mo, d, hh, mi, ss) => .dt y mo d hh mi ss
    | none => .vnone
  | .dt y mo d hh mi ss => .dt y mo d hh mi ss
  | _ => .vnone

/-!  A small parser for Python/JSON literals, enough for the literal
shapes the pipeline stores and re-reads (lists and dicts of strings,
integers, simple floats, None/True/False resp. null/true/false).
ast.literal_eval and json.loads differ in the accepted quote characters
and keyword spellings, controlled by the `json` flag.  Anything outside
this fragment fails to parse, which the callers treat exactly like a
parse exception. -/
def skipWs (cs : List Char) : List Char := cs.dropWhile isWsChar

def parseQuoted (q : Char) : List Char → Option (String × List Char)
  | c :: rest =>
    if c = q then
      let rec go : List Char → List Char → Option (String × List Char)
        | acc, d :: more =>
          if d = q then some (String.mk acc.reverse, more)
          else if d = '\\' then none
          else go (d :: acc) more
        | _, [] => none
      go [] rest
    else none
  | [] => none

def parseNumLit (cs : List Char) : Option (PyVal × List Char) :=
  let (sign, cs1) := match cs with
    | '-' :: rest => ((-1 : Int), rest)
    | _ => ((1 : Int), cs)
  let ds := cs1.takeWhile Char.isDigit
  let rest := cs1.dropWhile Char.isDigit
  match parseDigits ds with
  | none => none
  | some whole =>
    match rest with
    | '.' :: rest2 =>
      let fs := rest2.takeWhile Char.isDigit
      let rest3 := rest2.dropWhile Char.isDigit
      match parseDigits fs with
      | none => none
      | some frac =>
        let den : Nat := 10 ^ fs.length
        some (.float (mkRat (sign * ((whole : Int) * (den : Int) + (frac : Int))) den), rest3)
    | _ => some (.int (sign * (whole : Int)), rest)

mutual

def parseVal (json : Bool) : Nat → List Char → Option (PyVal × List Char)
  | 0, _ => none
  | fuel + 1, cs =>
    match skipWs cs with
    | [] => none
    | c :: rest =>
      if c = '[' then parseListRest json fuel rest
      else if c = '\x7b' then parseDictRest json fuel rest
      else if c = '\x27' ∧ ¬json then
        (parseQuoted '\x27' (c :: rest)).map (fun p => (.str p.1, p.2))
      else if c = '"' then
        (parseQuoted '"' (c :: rest)).map (fun p => (.str p.1, p.2))
      else if (¬json ∧ (c :: rest).take 4 = "None".data) ∨ (json ∧ (c :: rest).take 4 = "null".data) then
        some (.vnone, (c :: rest).drop 4)
      else if (¬json ∧ (c :: rest).take 4 = "True".data) then some (.bool true, (c :: rest).drop 4)
      else if (json ∧ (c :: rest).take 4 = "true".data) then some (.bool true, (c :: rest).drop 4)
      else if (¬json ∧ (c :: rest).take 5 = "False".data) then some (.bool false, (c :: rest).drop 5)
      else if (json ∧ (c :: rest).take 5 = "false".data) then some (.bool false, (c :: rest).drop 5)
      else parseNumLit (c :: rest)

def parseListRest (json : Bool) : Nat → List Char → Option (PyVal × List Char)
  | 0, _ => none
  | fuel + 1, cs =>
    match skipWs cs with
    | ']' :: rest => some (.list [], rest)
    | cs2 =>
      match parseVal json fuel cs2 with
      | none => none
      | some (v, rest) =>
        match parseListTail json fuel rest with
        | none => none
        | some (vs, rest2) => some (.list (v :: vs), rest2)

def parseListTail (json : Bool) : Nat → List Char → Option (List PyVal × List Char)
  | 0, _ => none
  | fuel + 1, cs =>
    match skipWs cs with
    | ']' :: rest => some ([], rest)
    | ',' :: rest =>
      match parseVal json fuel rest with
      | none => none
      | some (v, rest2) =>
        match parseListTail json fuel rest2 with
        | none => none
        | some (vs, rest3) => some (v :: vs, rest3)
    | _ => none

def parseDictRest (json : Bool) : Nat → List Char → Option (PyVal × List Char)
  | 0, _ => none
  | fuel + 1, cs =>
    match skipWs cs with
    | '\x7d' :: rest => some (.dict [], rest)
    | cs2 =>
      match parseDictEntry json fuel cs2 with
      | none => none
      | some (kv, rest) =>
        match parseDictTail json fuel rest with
        | none => none
        | some (kvs, rest2) => some (.dict (kv :: kvs), rest2)

def parseDictTail (json : Bool) : Nat → List Char → Option (List (String × PyVal) × List Char)
  | 0, _ => none
  | fuel + 1, cs =>
    match skipWs cs with
    | '\x7d' :: rest => some ([], rest)
    | ',' :: rest =>
      match parseDictEntry json fuel rest with
      | none => none
      | some (kv, rest2) =>
        match parseDictTail json fuel rest2 with
        | none => none
        | some (kvs, rest3) => some (kv :: kvs, rest3)
    | _ => none

def parseDictEntry (json : Bool) : Nat → List Char → Option ((String × PyVal) × List Char)
  | 0, _ => none
  | fuel + 1, cs =>
    let cs2 := skipWs cs
    let keyOpt :=
      match cs2 with
      | c :: _ =>
        if c = '"' then parseQuoted '"' cs2
        else if c = '\x27' ∧ ¬json then parseQuoted '\x27' cs2
        else none
      | [] => none
    match keyOpt with
    | none => none
    | some (k, rest) =>
      match skipWs rest with
      | ':' :: rest2 =>
        match parseVal json fuel rest2 with
        | none => none
        | some (v, rest3) => some ((k, v), rest3)
      | _ => none

end

/-- Python ast.literal_eval on the supported literal fragment: the whole
string must be consumed (up to trailing whitespace), else failure. -/
def literalEval (s : String) : Option PyVal :=
  match parseVal false (s.length + 1) s.data with
  | some (v, rest) => if skipWs rest = [] then some v else none
  | none => none

/-- Python json.loads on the supported fragment. -/
def jsonLoads (s : String) : Option PyVal :=
  match parseVal true (s.length + 1) s.data with
  | some (v, rest) => if skipWs rest = [] then some v else none
  | none => none

/-- Shared preamble of the cleaning extractors:
`data = ast.literal_eval(row) if isinstance(row, str) else row`, with the
surrounding try/except reported as Option.none. -/
def pyParse (v : PyVal) : Option PyVal :=
  match v with
  | .str s => literalEval s
  | v => some v

/-- Cell-level pd.to_numeric with errors="coerce": numeric strings parse
to numbers, booleans become 0/1, everything unparseable or missing
becomes NaN. -/
def to_numeric_cell (v : PyVal) : PyVal :=
  match v with
  | .str s =>
    match parseNumLit (strStrip s).data with
    | some (n, []) => n
    | _ => .nan
  | .int n => .int n
  | .float q => .float q
  | .bool b => .int (if b then 1 else 0)
  | _ => .nan

/-!  The two regular expressions of feature_engineering.py, implemented
as explicit leftmost-match scanners over character lists. -/
def isWordChar (c : Char) : Bool := c.isAlpha || c.isDigit || c = '_'

def isUpperAZ (c : Char) : Bool := 'A' ≤ c && c ≤ 'Z'

def isEirAlnum (c : Char) : Bool := isUpperAZ c || c.isDigit

/-- Boundary before the match: position 0 or a preceding non-word char. -/
def boundaryBefore : Option Char → Bool
  | none => true
  | some c => !isWordChar c

def boundaryAfterOk : List Char → Bool
  | [] => true
  | c :: _ => !isWordChar c

/-- Try the eircode pattern ([A-Z]\d\d\s?[A-Z0-9]x4 with word boundaries)
at the head of the list; the optional whitespace is matched greedily,
exactly as the regex engine does. -/
def eircodeAt : List Char → Option (String × String)
  | a :: d1 :: d2 :: rest =>
    if isUpperAZ a ∧ d1.isDigit ∧ d2.isDigit then
      match rest with
      | w :: r1 :: r2 :: r3 :: r4 :: rest2 =>
        if isWsChar w then
          if isEirAlnum r1 ∧ isEirAlnum r2 ∧ isEirAlnum r3 ∧ isEirAlnum r4 ∧ boundaryAfterOk rest2 then
            some (String.mk [a, d1, d2], String.mk [r1, r2, r3, r4])
          else none
        else
          if isEirAlnum w ∧ isEirAlnum r1 ∧ isEirAlnum r2 ∧ isEirAlnum r3 ∧ boundaryAfterOk (r4 :: rest2) then
            some (String.mk [a, d1, d2], String.mk [w, r1, r2, r3])
          else none
      | [w, r1, r2, r3] =>
        if ¬isWsChar w ∧ isEirAlnum w ∧ isEirAlnum r1 ∧ isEirAlnum r2 ∧ isEirAlnum r3 then
          some (String.mk [a, d1, d2], String.mk [w, r1, r2, r3])
        else none
      | _ => none
    else none
  | _ => none

def eircodeScanAux : Option Char → List Char → Option (String × String)
  | prev, c :: rest =>
    match (if boundaryBefore prev then eircodeAt (c :: rest) else none) with
    | some r => some r
    | none => eircodeScanAux (some c) rest
  | _, [] => none

/-- Leftmost match of EIRCODE_PATTERN over an (uppercased) char list. -/
def eircodeScan (cs : List Char) : Option (String × String) := eircodeScanAux none cs

/-- Try DUBLIN\s+(\d with one optional second digit) at the head of the
list, case-insensitively; the digit group is greedy. -/
def districtAt (cs : List Char) : Option Int :=
  if (cs.take 6).map Char.toLower = "dublin".data then
    let rest := cs.drop 6
    let ws := rest.takeWhile isWsChar
    let rest2 := rest.dropWhile isWsChar
    if ws = [] then none
    else match rest2 with
      | d1 :: d2 :: _ =>
        if d1.isDigit then
          if d2.isDigit then some (((d1.toNat - 48) * 10 + (d2.toNat - 48) : Nat) : Int)
          else some ((d1.toNat - 48 : Nat) : Int)
        else none
      | [d1] => if d1.isDigit then some ((d1.toNat - 48 : Nat) : Int) else none
      | [] => none
  else none

def districtScanAux : Nat → List Char → Option Int
  | _, [] => none
  | 0, _ => none
  | fuel + 1, c :: rest =>
    match districtAt (c :: rest) with
    | some d => some d
    | none => districtScanAux fuel rest

/-- Leftmost match of POSTAL_DISTRICT_PATTERN (case-insensitive). -/
def districtScan (cs : List Char) : Option Int := districtScanAux (cs.length + 1) cs

/-! ## Field extractors (data_cleaning.py) -/
/-- extract_from_locations: first name whose type equals the target. -/
def extract_from_locations (row : PyVal) (target_type : String) : PyVal :=
  match pyParse row with
  | none => .vnone
  | some data =>
    match data with
    | .list items =>
      match items.find? (fun item =>
        match item with
        | .dict d =>
          match dictGet d "type" with
          | some (.str t) => t == target_type
          | _ => false
        | _ => false) with
      | some (.dict d) => (dictGet d "name").getD .vnone
      | _ => .vnone
    | _ => .vnone

/-- parse_address: (street, line2, city) from a 2+-element address list;
the city is "Dublin" iff the whole word Dublin occurs in str(line2). -/
def dublinWordAt : Option Char → List Char → Bool
  | prev, 'D' :: 'u' :: 'b' :: 'l' :: 'i' :: 'n' :: rest =>
    (boundaryBefore prev && boundaryAfterOk rest) ||
      dublinWordAt (some 'D') ('u' :: 'b' :: 'l' :: 'i' :: 'n' :: rest)
  | _, c :: rest => dublinWordAt (some c) rest
  | _, [] => false

def dublinWordSearch (s : String) : Bool := dublinWordAt none s.data

def parse_address (row : PyVal) : PyVal × PyVal × PyVal :=
  match pyParse row with
  | none => (.vnone, .vnone, .vnone)
  | some data =>
    match data with
    | .list (street :: line2 :: _) =>
      (street, line2, if dublinWordSearch (pyStr line2) then .str "Dublin" else .vnone)
    | _ => (.vnone, .vnone, .vnone)

/-- The names kept by extract_tags: display_name values of dict entries,
kept when truthy (so a missing, None or empty-string display_name is
skipped), in source order, mirroring the Python accumulation loop. -/
def tagNames : List PyVal → List PyVal
  | [] => []
  | item :: rest =>
    match item with
    | .dict d =>
      match dictGet d "display_name" with
      | some v => if pyTruthy v then v :: tagNames rest else tagNames rest
      | Option.none => tagNames rest
    | _ => tagNames rest

/-- Python ", ".join(names): raises TypeError when a name is not a str. -/
def strCellOrTypeError : PyVal → Except String String
  | .str s => .ok s
  | _ => .error "TypeError: sequence item: expected str instance"

def pyJoinComma (names : List PyVal) : Except String String :=
  (names.mapM strCellOrTypeError).map (String.intercalate ", ")

/-- extract_tags: (list of display names, comma-space-joined string).
Only the literal_eval is inside try/except in the source; the join can
still raise, hence the Except result. -/
def extract_tags (row : PyVal) : Except String (List PyVal × String) :=
  match pyParse row with
  | none => .ok ([], "")
  | some data =>
    match data with
    | .list items =>
      match pyJoinComma (tagNames items) with
      | .ok joined => .ok (tagNames items, joined)
      | .error e => .error e
    | _ => .ok ([], "")

/-! ## Feature-engineering helpers (feature_engineering.py) -/
def categorize_price (x : Rat) : String :=
  if x == 0 then "free"
  else if x < 10 then "low"
  else if x < 30 then "medium"
  else "high"

/-- categorize_price applied to a cell of the price column.  That column
is the output of pd.to_numeric(..., errors="coerce"), so its cells are
ints, floats or NaN; a NaN fails every comparison in the Python function
and falls through to "high". -/
def categorize_price_cell : PyVal → String
  | .int n => categorize_price (n : Rat)
  | .float q => categorize_price q
  | _ => "high"

/-- build_full_address reads fields from the row by name (Series.get,
absent keys give None).  Note the source reads the key "city_resolved",
which is never a column of the frame. -/
def build_full_address (row : String → PyVal) : String :=
  let parts := [row "street", row "address_line2", row "city_resolved", row "eircode"]
  String.intercalate ", " (parts.filterMap (fun p =>
    match p with
    | .str s => if strLower s != "unknown" then some s else none
    | _ => none))

def resolve_city (row : String → PyVal) : PyVal :=
  match row "venue_city" with
  | .str s => if strLower s != "unknown" then .str s else row "location_city"
  | _ => row "location_city"

/-- dublin_area_cluster on a row.  The district cell is produced by
Series.apply over optional ints, so it is None, NaN, an int or a float;
`district is None` only matches the Python None, while a NaN fails every
numeric comparison and falls through to "other". -/
def dublin_area_cluster (row : String → PyVal) : String :=
  match row "dublin_postal_district" with
  | .vnone => "unknown"
  | .int d =>
    if d ≤ 2 then "city_centre"
    else if d = 4 ∨ d = 6 then "south_inner"
    else if 7 ≤ d then "outer_dublin"
    else "other"
  | .float q =>
    if q ≤ 2 then "city_centre"
    else if q = 4 ∨ q = 6 then "south_inner"
    else if 7 ≤ q then "outer_dublin"
    else "other"
  | _ => "other"

/-- Python iteration over the parsed value, as used by the tag-list
comprehension: lists yield elements, strings yield characters, dicts
yield their keys, scalars and None raise TypeError. -/
def pyIterate (d : PyVal) : Except String (List PyVal) :=
  match d with
  | .list l => .ok l
  | .str s => .ok (s.data.map (fun c => .str (String.mk [c])))
  | .dict kvs => .ok (kvs.map (fun kv => .str kv.1))
  | _ => .error "TypeError: object is not iterable"

/-- safe_json_parse_and_normalize: json.loads, falling back to
ast.literal_eval, falling back to []; non-strings pass through when they
are lists and become [] otherwise.  The final comprehension
[str(tag).lower().strip() for tag in data] is outside the try blocks and
can raise when data is not iterable. -/
def safe_json_parse_and_normalize (x : PyVal) : Except String (List PyVal) :=
  let data : PyVal :=
    match x with
    | .str s =>
      match jsonLoads s with
      | some d => d
      | none =>
        match literalEval s with
        | some d => d
        | none => .list []
    | .list l => .list l
    | _ => .list []
  (pyIterate data).map (fun items =>
    items.map (fun tag => .str (strStrip (strLower (pyStr tag)))))

def extract_eircode (address : PyVal) : PyVal × PyVal × PyVal :=
  match address with
  | .str s =>
    match eircodeScan (strUpper s).data with
    | some (routing_key, unique_id) =>
      (.str (routing_key ++ " " ++ unique_id), .str routing_key, .str unique_id)
    | none => (.vnone, .vnone, .vnone)
  | _ => (.vnone, .vnone, .vnone)

def extract_dublin_postal_district (address : PyVal) : Option Int :=
  match address with
  | .str s => districtScan s.data
  | _ => none

/-- Pandas dtype inference when a Series is built from optional ints
(the output of Series.apply): all ints give an int column, all Nones
give an object column that keeps storing None, and a mixture upcasts to
float64 where each None becomes NaN. -/
def inferSeries (res : List (Option Int)) : List PyVal :=
  if res.all (fun r => r.isSome) then res.map (fun r => .int (r.getD 0))
  else if res.all (fun r => r.isNone) then res.map (fun _ => .vnone)
  else res.map (fun r =>
    match r with
    | some n => .float (n : Rat)
    | none => .nan)

/-- json.dumps of a tags_list cell: the cells at that point are lists of
strings produced by the normalizer. -/
def jsonDumpsCell (v : PyVal) : PyVal :=
  match v with
  | .list l =>
    .str ("[" ++ String.intercalate ", " (l.map (fun e =>
      match e with
      | .str s => "\"" ++ s ++ "\""
      | other => pyRepr other)) ++ "]")
  | other => other

/-! ## DataFrame model -/
/-- A pandas DataFrame: named columns over positional rows. -/
structure Df where
  cols : List (String × List PyVal)

def Df.names (df : Df) : List String := df.cols.map (fun c => c.1)

def Df.getCol (df : Df) (n : String) : Option (List PyVal) :=
  (df.cols.find? (fun c => c.1 == n)).map (fun c => c.2)

def Df.hasCol (df : Df) (n : String) : Bool := (df.getCol n).isSome

/-- Column assignment: replaces the cells of an existing column in
place, else appends a new column on the right (pandas semantics). -/
def Df.setCol (df : Df) (n : String) (cells : List PyVal) : Df :=
  if df.hasCol n then ⟨df.cols.map (fun c => if c.1 == n then (c.1, cells) else c)⟩
  else ⟨df.cols ++ [(n, cells)]⟩

def Df.dropCols (df : Df) (ns : List String) : Df :=
  ⟨df.cols.filter (fun c => !(ns.contains c.1))⟩

def Df.nrows (df : Df) : Nat :=
  match df.cols with
  | [] => 0
  | c :: _ => c.2.length

/-- Row access by name with Series.get semantics: an absent column (or
an index outside the column) reads as None. -/
def Df.rowGet (df : Df) (i : Nat) (n : String) : PyVal :=
  match df.getCol n with
  | some cs => cs.getD i .vnone
  | none => .vnone

/-- df.apply(f, axis=1) for a row-consuming scalar function. -/
def Df.applyRows (df : Df) (f : (String → PyVal) → PyVal) : List PyVal :=
  (List.range df.nrows).map (fun i => f (df.rowGet i))

/-! ## Cleaning stage (data_cleaning.py) -/
/-- drop_fully_null_columns: drops every column whose isna count equals
len(df); in particular, on a zero-row frame every column qualifies. -/
def drop_fully_null_columns (df : Df) : Df :=
  ⟨df.cols.filter (fun c => !(c.2.all isNA))⟩

def safe_drop (df : Df) (ns : List String) : Df := df.dropCols ns

/-- Cell-level to_utc_naive_datetime: pd.to_datetime(errors="coerce",
utc=True) then tz_convert(None). -/
def to_utc_naive_cell (v : PyVal) : PyVal := to_datetime_cell v

def stdChar (c : Char) : Char :=
  let lc := c.toLower
  if lc = '.' ∨ lc = ' ' then '_' else lc

/-- Column-name standardization: lowercase, then replace "." and " "
by "_" (single-character replacements commute with lowercasing). -/
def stdName (s : String) : String := String.mk (s.data.map stdChar)

def standardize_column_names (df : Df) : Df :=
  ⟨df.cols.map (fun c => (stdName c.1, c.2))⟩

/-- fillna on one column, guarded by column presence as in the source. -/
def fillnaCol (df : Df) (n : String) (v : PyVal) : Df :=
  match df.getCol n with
  | some cs => df.setCol n (cs.map (fun x => if isNA x then v else x))
  | none => df

/-- Scalar id keys used by drop_duplicates: pandas hashes the id cells,
so list/dict-valued ids raise TypeError; None and NaN are normalized to
one missing key (factorize treats all NA markers as equal). -/
inductive Scalar where
  | none
  | str (s : String)
  | int (n : Int)
  | float (q : Rat)
  | bool (b : Bool)
  | dt (y : Int) (mo d hh mi ss : Nat)
  deriving DecidableEq

def idKey : PyVal → Option Scalar
  | .vnone => some .none
  | .nan => some .none
  | .str s => some (.str s)
  | .int n => some (.int n)
  | .float q => some (.float q)
  | .bool b => some (.bool b)
  | .dt y mo d hh mi ss => some (.dt y mo d hh mi ss)
  | _ => Option.none

def idKeys : List PyVal → Option (List Scalar)
  | [] => some []
  | c :: t =>
    match idKey c, idKeys t with
    | some k, some ks => some (k :: ks)
    | _, _ => Option.none

/-- keep='first' mask: an entry is kept iff its key was not seen yet. -/
def keepMask (seen : List Scalar) : List Scalar → List Bool
  | [] => []
  | k :: rest => (!(seen.contains k)) :: keepMask (k :: seen) rest

def maskFilter {α : Type} : List Bool → List α → List α
  | true :: ms, c :: cs => c :: maskFilter ms cs
  | false :: ms, _ :: cs => maskFilter ms cs
  | _, _ => []

/-- df.drop_duplicates(subset="id", keep="first"): raises KeyError when
the frame has no id column, keeps the first row of each id group, and
applies one selection mask to every column. -/
def drop_duplicates_by_id (df : Df) : Except String Df :=
  match df.getCol "id" with
  | Option.none => .error "KeyError: id"
  | some ids =>
    match idKeys ids with
    | Option.none => .error "TypeError: unhashable type in id column"
    | some ks =>
      let m := keepMask [] ks
      .ok ⟨df.cols.map (fun c => (c.1, maskFilter m c.2))⟩

def noisy_nested_columns : List String :=
  ["urgency_signals.messages", "urgency_signals.categories",
   "public_collections.creator_collections.collections"]

def sales_timezone_columns : List String :=
  ["event_sales_status.start_sales_date.timezone",
   "event_sales_status.start_sales_date.local",
   "event_sales_status.start_sales_date.utc",
   "event_sales_status.end_sales_date.timezone",
   "event_sales_status.end_sales_date.local",
   "event_sales_status.end_sales_date.utc",
   "open_discount.end_date"]

def addr_col : String := "primary_venue.address.localized_multi_line_address_display"

/-- Steps 1-3 of clean_events: drop fully-null columns, drop the fixed
noisy nested columns, derive city and neighbourhood from locations. -/
def cleanA (df : Df) : Df :=
  let df := drop_fully_null_columns df
  let df := safe_drop df noisy_nested_columns
  if df.hasCol "locations" then
    let loc := (df.getCol "locations").getD []
    let df := df.setCol "city" (loc.map (fun x => extract_from_locations x "locality"))
    df.setCol "neighbourhood" (loc.map (fun x => extract_from_locations x "neighbourhood"))
  else df

/-- Step 4: venue address parts.  The source unpacks
zip(star of the applied series), which raises ValueError on a zero-row
frame; otherwise three derived columns are assigned. -/
def cleanAddr (df : Df) : Except String Df :=
  if df.hasCol addr_col then
    let a := (df.getCol addr_col).getD []
    let res := a.map parse_address
    if res.isEmpty then .error "ValueError: not enough values to unpack"
    else
      let df := df.setCol "venue_street" (res.map (fun r => r.1))
      let df := df.setCol "venue_line2" (res.map (fun r => r.2.1))
      .ok (df.setCol "venue_city" (res.map (fun r => r.2.2)))
  else .ok df

/-- Step 5: tags_list and tags_string, same zip-unpacking shape; the
per-cell extractor itself can raise (see extract_tags). -/
def cleanTags (df : Df) : Except String Df :=
  if df.hasCol "tags" then
    match ((df.getCol "tags").getD []).mapM extract_tags with
    | .error e => .error e
    | .ok res =>
      if res.isEmpty then .error "ValueError: not enough values to unpack"
      else
        let df := df.setCol "tags_list" (res.map (fun r => PyVal.list r.1))
        .ok (df.setCol "tags_string" (res.map (fun r => PyVal.str r.2)))
  else .ok df

/-- Steps 6-10: drop sales/discount columns, drop consumed raw columns,
normalize published, standardize names, fill declared defaults. -/
def cleanB (df : Df) : Df :=
  let df := safe_drop df sales_timezone_columns
  let df := safe_drop df ["locations", "tags", addr_col]
  let df := if df.hasCol "published" then
      df.setCol "published" (((df.getCol "published").getD []).map to_utc_naive_cell)
    else df
  let df := standardize_column_names df
  let df := fillnaCol df "summary" (.str "")
  let df := fillnaCol df "venue_city" (.str "unknown")
  let df := fillnaCol df "city" (.str "unknown")
  fillnaCol df "neighbourhood" (.str "unknown")

def cleanSteps (df : Df) : Except String Df :=
  ((cleanAddr (cleanA df)).bind cleanTags).map cleanB

/-- clean_events: steps 1-10 followed by the unconditional
deduplication by id. -/
def clean_events (df : Df) : Except String Df :=
  (cleanSteps df).bind drop_duplicates_by_id

/-! ## Record normalizer (pd.json_normalize) -/
mutual

/-- Leaf paths of one record: nested dicts flatten into dotted paths,
everything else (including lists) is a leaf. -/
def recordPaths : Nat → PyVal → List (String × PyVal)
  | 0, _ => []
  | fuel + 1, v =>
    match v with
    | .dict kvs => recordPathsKVs fuel kvs
    | other => [("", other)]

def recordPathsKVs : Nat → List (String × PyVal) → List (String × PyVal)
  | 0, _ => []
  | fuel + 1, kvs =>
    match kvs with
    | [] => []
    | (k, .dict sub) :: rest =>
      (recordPathsKVs fuel sub).map (fun p => (k ++ "." ++ p.1, p.2)) ++ recordPathsKVs fuel rest
    | (k, v) :: rest => (k, v) :: recordPathsKVs fuel rest

end

def pyvalFuel : Nat := 1000

def recordFlat (r : PyVal) : List (String × PyVal) :=
  match r with
  | .dict kvs => recordPathsKVs pyvalFuel kvs
  | _ => []

/-- Union of leaf paths over all records, in first-appearance order. -/
def allPaths (records : List PyVal) : List String :=
  records.foldl (fun acc r =>
    (recordFlat r).foldl (fun acc2 p =>
      if acc2.contains p.1 then acc2 else acc2 ++ [p.1]) acc) []

/-- pd.json_normalize: one row per record, one column per leaf path;
paths absent from a record read as NaN. -/
def normalize_events (records : List PyVal) : Df :=
  ⟨(allPaths records).map (fun n =>
    (n, records.map (fun r =>
      match (recordFlat r).find? (fun p => p.1 == n) with
      | some p => p.2
      | Option.none => .nan)))⟩

/-! ## Feature engineering stage (feature_engineering.py) -/
def getColE (df : Df) (n : String) : Except String (List PyVal) :=
  match df.getCol n with
  | some cs => .ok cs
  | Option.none => .error ("KeyError: " ++ n)

/-- One cell of series + " " (string concatenation with a scalar).
Pandas masks missing values (the result is NaN there) and retries the
operator elementwise otherwise, so non-string non-missing cells raise
TypeError. -/
def cellAddSpace : PyVal → Except String PyVal
  | .str s => .ok (.str (s ++ " "))
  | .vnone => .ok .nan
  | .nan => .ok .nan
  | _ => .error "TypeError: can only concatenate str"

def cellAdd2 (a b : PyVal) : Except String PyVal :=
  if isNA a ∨ isNA b then .ok .nan
  else match a, b with
    | .str x, .str y => .ok (.str (x ++ y))
    | _, _ => .error "TypeError: can only concatenate str"

def colAddSpace (cs : List PyVal) : Except String (List PyVal) := cs.mapM cellAddSpace

def colAdd2 : List PyVal → List PyVal → Except String (List PyVal)
  | a :: as_, b :: bs => do
    let h ← cellAdd2 a b
    let t ← colAdd2 as_ bs
    .ok (h :: t)
  | _, _ => .ok []

def durationCell (e s : PyVal) : PyVal :=
  match e, s with
  | .dt y1 mo1 d1 h1 mi1 s1, .dt y2 mo2 d2 h2 mi2 s2 =>
    .float (mkRat (dtSeconds y1 mo1 d1 h1 mi1 s1 - dtSeconds y2 mo2 d2 h2 mi2 s2) 3600)
  | _, _ => .nan

def isFreeCell : PyVal → PyVal
  | .int n => .bool (n == 0)
  | .float q => .bool (q == 0)
  | _ => .bool false

/-- Lines 112-134: datetime composition, duration, published parse and
the price block.  String concatenation of the date and time columns can
raise TypeError on non-string non-missing cells (see cellAdd2). -/
def fe_phase1 (df : Df) : Except String Df := do
  let sd ← getColE df "start_date"
  let st ← getColE df "start_time"
  let c1 ← colAddSpace sd
  let c2 ← colAdd2 c1 st
  let df := df.setCol "start_datetime" (c2.map to_datetime_cell)
  let ed ← getColE df "end_date"
  let et ← getColE df "end_time"
  let e1 ← colAddSpace ed
  let e2 ← colAdd2 e1 et
  let df := df.setCol "end_datetime" (e2.map to_datetime_cell)
  let sdt := (df.getCol "start_datetime").getD []
  let edt := (df.getCol "end_datetime").getD []
  let df := df.setCol "duration_hours" (List.zipWith durationCell edt sdt)
  let pub ← getColE df "published"
  let df := df.setCol "published" (pub.map to_datetime_cell)
  let tick ← getColE df "ticket_availability_minimum_ticket_price_major_value"
  let price := tick.map to_numeric_cell
  let df := df.setCol "price" price
  let df := df.setCol "is_free" (price.map isFreeCell)
  .ok (df.setCol "price_category" (price.map (fun c => .str (categorize_price_cell c))))

def final_columns : List String :=
  ["id", "name", "summary", "url", "published",
   "start_datetime", "end_datetime", "duration_hours",
   "primary_venue_name",
   "venue_street", "venue_line2", "venue_city",
   "city", "neighbourhood",
   "price", "is_free", "price_category",
   "tags_list", "tags_string"]

/-- df[final_columns]: projection onto the fixed whitelist in the given
order; raises KeyError listing the missing labels, if any. -/
def fe_project (df : Df) : Except String Df :=
  let missing := final_columns.filter (fun c => !(df.hasCol c))
  if missing.isEmpty then
    .ok ⟨final_columns.map (fun c => (c, (df.getCol c).getD []))⟩
  else .error ("KeyError: " ++ String.intercalate ", " missing)

def aggregation_map : List (String × List String) :=
  [("tag_music_event",
    ["music", "concert or performance", "livemusic", "concert", "musical",
     "edm / electronic", "techno", "rock", "pop", "indie", "folk", "classical",
     "blues & jazz", "latin", "house", "alternative", "dj", "tribute",
     "livemusicvenue", "liveevent", "choir", "irishmusic", "live"]),
   ("tag_nightlife_social",
    ["party or social gathering", "party", "nightlife", "nightclub",
     "celebration", "fun", "dance", "dinner or gala", "social"]),
   ("tag_dating_singles",
    ["dating", "singles", "speeddating", "speed_dating", "matchmaking",
     "matchmaker", "dublin_speed_dating", "speed_date"]),
   ("tag_education_business",
    ["class, training, or workshop", "workshop", "conference", "business & professional",
     "seminar or talk", "networking", "meeting or networking event",
     "startups & small business", "training", "education", "science & technology",
     "tradeshow, consumer show, or expo"]),
   ("tag_arts_culture",
    ["performing & visual arts", "art", "painting", "theatre", "performance",
     "film, media & entertainment", "creativity", "creative", "craft", "diy",
     "community & culture", "community", "comedy", "standupcomedy",
     "standup", "comedy_club"]),
   ("tag_wellness_health",
    ["health & wellness", "yoga", "meditation", "mindfulness", "relaxation",
     "soundbath", "soundhealing", "personal health", "medicine", "wellness",
     "cacao", "religion & spirituality", "women_empowerment"]),
   ("tag_food_drink",
    ["food & drink", "food", "wine", "cacao"]),
   ("tag_holiday",
    ["christmas", "seasonal & holiday", "festive", "holiday", "christmas_events",
     "new years eve", "newyearseve", "countdown", "carols"]),
   ("tag_hobbies_lifestyle",
    ["hobbies & special interest", "home & lifestyle", "tour", "travel",
     "travel & outdoor", "sports & fitness", "family & education",
     "family_friendly", "game or competition", "nature"])]

/-- One tag flag: 1 iff some keyword is a member (Python `in`, element
equality, not substring) of the normalized tag list. -/
def tagFlagCell (kws : List String) (cell : PyVal) : PyVal :=
  match cell with
  | .list l => .int (if kws.any (fun kw => l.any (fun e => pvBeq e (.str kw))) then 1 else 0)
  | _ => .int 0

def monthCell : PyVal → PyVal
  | .dt _ mo _ _ _ _ => .int (mo : Int)
  | _ => .nan

def weekdayCell : PyVal → PyVal
  | .dt y mo d _ _ _ => .str (dayNameOf y mo d)
  | _ => .nan

def hourCell : PyVal → PyVal
  | .dt _ _ _ hh _ _ => .int (hh : Int)
  | _ => .nan

def minuteCell : PyVal → PyVal
  | .dt _ _ _ _ mi _ => .int (mi : Int)
  | _ => .nan

def isWeekendCell : PyVal → PyVal
  | .str s => .bool (s == "Saturday" || s == "Sunday")
  | _ => .bool false

def weekendNightCell (w h : PyVal) : PyVal :=
  .bool (match w, h with
    | .str s, .int hh => (s == "Friday" || s == "Saturday") && 18 ≤ hh
    | _, _ => false)

def daysDiffCell (s p : PyVal) : PyVal :=
  match s, p with
  | .dt y1 mo1 d1 h1 mi1 s1, .dt y2 mo2 d2 h2 mi2 s2 =>
    .int (Int.fdiv (dtSeconds y1 mo1 d1 h1 mi1 s1 - dtSeconds y2 mo2 d2 h2 mi2 s2) 86400)
  | _, _ => .nan

def rename_map : List (String × String) :=
  [("primary_venue_name", "venue_name"),
   ("venue_street", "street"),
   ("venue_line2", "address_line2"),
   ("city", "location_city"),
   ("start_datetime", "start_time"),
   ("end_datetime", "end_time")]

def renameName (m : List (String × String)) (x : String) : String :=
  ((m.find? (fun p => p.1 == x)).map (fun p => p.2)).getD x

def renameWith (df : Df) (m : List (String × String)) : Df :=
  ⟨df.cols.map (fun c => (renameName m c.1, c.2))⟩

def castIntCell : PyVal → PyVal
  | .bool b => .int (if b then 1 else 0)
  | .int n => .int n
  | _ => .int 0

def districtFillCell : PyVal → PyVal
  | .nan => .int (-1)
  | .vnone => .int (-1)
  | .float q => .int q.floor
  | .int n => .int n
  | _ => .int (-1)

def fillCell (d : PyVal) (c : PyVal) : PyVal := if isNA c then d else c

/-- Lines 150-254: tag normalization and taxonomy flags, temporal
features, lead time, renaming, standardization and tags_list
serialization, in exactly the source order, up to the deduplication. -/
def fe_mid (df : Df) : Except String Df := do
  let tl ← getColE df "tags_list"
  let tln ← tl.mapM safe_json_parse_and_normalize
  let df := df.setCol "tags_list" (tln.map PyVal.list)
  let tlCells := (df.getCol "tags_list").getD []
  let df := aggregation_map.foldl (fun d p => d.setCol p.1 (tlCells.map (tagFlagCell p.2))) df
  let sdt ← getColE df "start_datetime"
  let df := df.setCol "event_month" (sdt.map monthCell)
  let wk := sdt.map weekdayCell
  let df := df.setCol "event_weekday" wk
  let hrs := sdt.map hourCell
  let df := df.setCol "event_hour" hrs
  let df := df.setCol "event_minute" (sdt.map minuteCell)
  let df := df.setCol "is_weekend" (wk.map isWeekendCell)
  let df := df.setCol "is_weekend_night" (List.zipWith weekendNightCell wk hrs)
  let pub ← getColE df "published"
  let df := df.setCol "days_published_before_event" (List.zipWith daysDiffCell sdt pub)
  let df := renameWith df rename_map
  let df := standardize_column_names df
  let tl2 ← getColE df "tags_list"
  .ok (df.setCol "tags_list" (tl2.map jsonDumpsCell))

/-- The three-column eircode assignment
df[[eircode, eircode_routing_key, eircode_unique_id]] = ...apply(pd.Series):
on a zero-row frame apply(pd.Series) yields a one-dimensional empty
Series, and assigning it to the three-label column list raises
ValueError; otherwise the three tuple components become three columns. -/
def assignEircodeCols (df : Df) (a2 : List PyVal) : Except String Df :=
  if a2.isEmpty then .error "ValueError: Columns must be same length as key"
  else
    let eir := a2.map extract_eircode
    let df := df.setCol "eircode" (eir.map (fun t => t.1))
    let df := df.setCol "eircode_routing_key" (eir.map (fun t => t.2.1))
    .ok (df.setCol "eircode_unique_id" (eir.map (fun t => t.2.2)))

/-- Lines 256-291: integer casts, eircode and district extraction,
full address, resolved city, area cluster and the final fills, in
exactly the source order, after the deduplication. -/
def fe_post (df : Df) : Except String Df := do
  let f1 ← getColE df "is_free"
  let df := df.setCol "is_free" (f1.map castIntCell)
  let f2 ← getColE df "is_weekend"
  let df := df.setCol "is_weekend" (f2.map castIntCell)
  let f3 ← getColE df "is_weekend_night"
  let df := df.setCol "is_weekend_night" (f3.map castIntCell)
  let a2 ← getColE df "address_line2"
  let df ← assignEircodeCols df a2
  let a2b ← getColE df "address_line2"
  let df := df.setCol "dublin_postal_district" (inferSeries (a2b.map extract_dublin_postal_district))
  let df := df.setCol "full_address" (df.applyRows (fun g => .str (build_full_address g)))
  let df := df.setCol "city" (df.applyRows resolve_city)
  let df := df.setCol "dublin_area_cluster" (df.applyRows (fun g => .str (dublin_area_cluster g)))
  let p ← getColE df "price"
  let df := df.setCol "price_missing" (p.map (fun c => .int (if isNA c then 1 else 0)))
  let df := df.setCol "price" (p.map (fillCell (.int 0)))
  let g1 ← getColE df "eircode"
  let df := df.setCol "eircode" (g1.map (fillCell (.str "unknown")))
  let g2 ← getColE df "eircode_routing_key"
  let df := df.setCol "eircode_routing_key" (g2.map (fillCell (.str "unknown")))
  let g3 ← getColE df "eircode_unique_id"
  let df := df.setCol "eircode_unique_id" (g3.map (fillCell (.str "unknown")))
  let dd ← getColE df "dublin_postal_district"
  let df := df.setCol "dublin_postal_district" (dd.map districtFillCell)
  let ts ← getColE df "tags_string"
  .ok (df.setCol "tags_string" (ts.map (fillCell (.str ""))))

/-- Lines 150-291: the post-projection block, with the id
deduplication between serialization and the casts. -/
def fe_rest (df : Df) : Except String Df :=
  (fe_mid df).bind (fun d => (drop_duplicates_by_id d).bind fe_post)

def engineer_features (df : Df) : Except String Df :=
  ((fe_phase1 df).bind fe_project).bind fe_rest

def preferred_order : List String :=
  ["id", "name", "summary", "url",
   "published", "start_time", "end_time", "duration_hours",
   "days_published_before_event", "event_month", "event_weekday",
   "event_hour", "event_minute", "is_weekend", "is_weekend_night",
   "venue_name", "city", "neighbourhood", "street", "address_line2",
   "eircode", "eircode_routing_key", "eircode_unique_id",
   "dublin_postal_district", "full_address", "dublin_area_cluster",
   "price", "is_free", "price_category",
   "tags_string", "tags_list",
   "tag_music_event", "tag_nightlife_social", "tag_dating_singles",
   "tag_education_business", "tag_arts_culture", "tag_wellness_health",
   "tag_food_drink", "tag_holiday", "tag_hobbies_lifestyle"]

def order_columns (df : Df) : Df :=
  ⟨preferred_order.filterMap (fun c => (df.getCol c).map (fun cs => (c, cs)))⟩

/-! ## Deduplication lemmas -/
/-- Specification-style keep-first deduplication: keep the head and
remove its later duplicates. -/
def keepFirstSpec : List Scalar → List Scalar
  | [] => []
  | a :: t => a :: keepFirstSpec (t.filter (fun b => b != a))
termination_by l => l.length
decreasing_by simpa using Nat.lt_succ_of_le (List.length_filter_le _ _)

/-! ## Claim C9: deduplication by id -/
/-- Keep-first deduplication of the id cells, as drop_duplicates
performs it. -/
def dedupIds (ks : List Scalar) (ids : List PyVal) : List PyVal :=
  maskFilter (keepMask [] ks) ids

/-- Witness for C9 on a concrete two-row duplicate-id table. -/
def c9df : Df := Df.mk [("id", [PyVal.str "a", PyVal.str "b", PyVal.str "a"]),
  ("name", [PyVal.str "x", PyVal.str "y", PyVal.str "z"])]

/-! ## Definitions supporting the claim theorems -/
/-- A row getter holding only the fields build_full_address and
resolve_city read, with the resolved city "Dublin" coming from the
location_city fallback. -/
def c2row : String → PyVal := fun k =>
  if k = "street" then .str "Main St"
  else if k = "address_line2" then .str "Dublin 6"
  else if k = "venue_city" then .str "unknown"
  else if k = "location_city" then .str "Dublin"
  else .vnone

/-- A row getter carrying just a district cell, as the cluster
derivation reads it. -/
def districtRow (c : PyVal) : String → PyVal :=
  fun k => if k = "dublin_postal_district" then c else .vnone

/-- The bucketing of one optional district as the claim describes it,
with the pandas upcast made explicit: a missing district is Python None
only when no row has a district; otherwise it is NaN and falls through
every numeric comparison to "other". -/
def claimCluster (results : List (Option Int)) (r : Option Int) : String :=
  match r with
  | Option.none => if results.all (fun x => x.isNone) then "unknown" else "other"
  | some d =>
    if d ≤ 2 then "city_centre"
    else if d = 4 ∨ d = 6 then "south_inner"
    else if 7 ≤ d then "outer_dublin"
    else "other"

/-- Does the extractor preamble yield a Python list for this value? -/
def parsesToList (v : PyVal) : Bool :=
  match pyParse v with
  | some (.list _) => true
  | _ => false

def isStrVal : PyVal → Bool
  | .str _ => true
  | _ => false

/-- The display_name values the claim says are kept: dict entries whose
display_name is present, non-null and a non-empty string. -/
def claimKeptNames : List PyVal → List String
  | [] => []
  | e :: rest =>
    match e with
    | .dict d =>
      match dictGet d "display_name" with
      | some (.str s) =>
        if s = "" then claimKeptNames rest else s :: claimKeptNames rest
      | _ => claimKeptNames rest
    | _ => claimKeptNames rest

/-- Entries whose display_name values are strings or null or absent, as
the event API delivers them. -/
def strTypedEntry : PyVal → Bool
  | .dict d =>
    match dictGet d "display_name" with
    | some (.str _) => true
    | some .vnone => true
    | Option.none => true
    | some _ => false
  | _ => true

def strTypedEntries (entries : List PyVal) : Bool := entries.all strTypedEntry

/-! ## Claim C5: end-to-end single record -/
/-- The raw record of the end-to-end claim: the five fields the claim
fixes, together with the remaining fields the pipeline structurally
requires (id, name, summary, url, published, end date and time, a
locations field, and a venue name), filled with neutral values. -/
def c5record : PyVal := .dict
  [("id", .str "evt-1"),
   ("name", .str "Test Event"),
   ("summary", .str "desc"),
   ("url", .str "http://x"),
   ("published", .str "2025-01-01T10:00:00Z"),
   ("start_date", .str "2025-03-01"),
   ("start_time", .str "20:00:00"),
   ("end_date", .str "2025-03-01"),
   ("end_time", .str "23:00:00"),
   ("ticket_availability", .dict [("minimum_ticket_price", .dict [("major_value", .str "15.00")])]),
   ("tags", .list [.dict [("display_name", .str "Live Music")]]),
   ("locations", .list []),
   ("primary_venue", .dict
     [("name", .str "Venue X"),
      ("address", .dict [("localized_multi_line_address_display", .str "['Main St', 'Dublin 6']")])])]

/-- The full pipeline on the single record: normalize, clean, engineer,
order. -/
def c5_result : Except String Df :=
  ((clean_events (normalize_events [c5record])).bind engineer_features).map order_columns

def c4w : Df := ⟨[("id", [PyVal.str "a"]), ("summary", [PyVal.str ""])]⟩

def c4df : Df := ⟨[("id", [PyVal.str "1"]), (addr_col, [PyVal.str "notalist"])]⟩

/-! ## Feature-stage success/failure machinery -/
def strOrNA : PyVal → Bool
  | .str _ => true
  | .vnone => true
  | .nan => true
  | _ => false

def projOf (g : String → List PyVal) : Df :=
  ⟨final_columns.map (fun c => (c, g c))⟩

/-- Column names of the frame reaching the rename step inside the
feature block, when the input is the projected frame. -/
def fe_mid_names : List String :=
  ["id", "name", "summary", "url", "published",
   "start_datetime", "end_datetime", "duration_hours",
   "primary_venue_name",
   "venue_street", "venue_line2", "venue_city",
   "city", "neighbourhood",
   "price", "is_free", "price_category",
   "tags_list", "tags_string",
   "tag_music_event", "tag_nightlife_social", "tag_dating_singles",
   "tag_education_business", "tag_arts_culture", "tag_wellness_health",
   "tag_food_drink", "tag_holiday", "tag_hobbies_lifestyle",
   "event_month", "event_weekday", "event_hour", "event_minute",
   "is_weekend", "is_weekend_night", "days_published_before_event"]

def strOrNan : PyVal → Bool
  | .str _ => true
  | .nan => true
  | _ => false

def phase1_set_names : List String :=
  ["start_datetime", "end_datetime", "duration_hours", "published",
   "price", "is_free", "price_category"]

/-- The columns the feature stage requires of its input table: the
non-derived final columns plus the date/time and price source columns
consumed while building the derived ones. -/
def required_columns : List String :=
  ["id", "name", "summary", "url", "published",
   "start_date", "start_time", "end_date", "end_time",
   "primary_venue_name", "venue_street", "venue_line2", "venue_city",
   "city", "neighbourhood",
   "ticket_availability_minimum_ticket_price_major_value",
   "tags_list", "tags_string"]

/-- A table with every required column present but a malformed tags_list
value in its single row: the normalization comprehension iterates over the
parsed scalar 5 and raises. -/
def c8df : Df :=
  ⟨[("id", [.str "1"]), ("name", [.str "e"]), ("summary", [.str ""]),
    ("url", [.str ""]), ("published", [.str "2025-01-01T10:00:00Z"]),
    ("start_date", [.str "2025-03-01"]), ("start_time", [.str "20:00:00"]),
    ("end_date", [.str "2025-03-01"]), ("end_time", [.str "22:00:00"]),
    ("primary_venue_name", [.str "v"]), ("venue_street", [.str "s"]),
    ("venue_line2", [.str "Dublin 6"]), ("venue_city", [.str "Dublin"]),
    ("city", [.str "Dublin"]), ("neighbourhood", [.str "x"]),
    ("ticket_availability_minimum_ticket_price_major_value", [.str "15.00"]),
    ("tags_list", [.str "5"]), ("tags_string", [.str ""])]⟩

/-- A zero-row table carrying every required column. -/
def c8df0 : Df :=
  ⟨[("id", []), ("name", []), ("summary", []),
    ("url", []), ("published", []),
    ("start_date", []), ("start_time", []),
    ("end_date", []), ("end_time", []),
    ("primary_venue_name", []), ("venue_street", []),
    ("venue_line2", []), ("venue_city", []),
    ("city", []), ("neighbourhood", []),
    ("ticket_availability_minimum_ticket_price_major_value", []),
    ("tags_list", []), ("tags_string", [])]⟩

/-- The same table with a well-formed tags_list value. -/
def c8w : Df :=
  ⟨[("id", [.str "1"]), ("name", [.str "e"]), ("summary", [.str ""]),
    ("url", [.str ""]), ("published", [.str "2025-01-01T10:00:00Z"]),
    ("start_date", [.str "2025-03-01"]), ("start_time", [.str "20:00:00"]),
    ("end_date", [.str "2025-03-01"]), ("end_time", [.str "22:00:00"]),
    ("primary_venue_name", [.str "v"]), ("venue_street", [.str "s"]),
    ("venue_line2", [.str "Dublin 6"]), ("venue_city", [.str "Dublin"]),
    ("city", [.str "Dublin"]), ("neighbourhood", [.str "x"]),
    ("ticket_availability_minimum_ticket_price_major_value", [.str "15.00"]),
    ("tags_list", [.str "[]"]), ("tags_string", [.str ""])]⟩

/-! ## Generic lemmas about the DataFrame operations -/
theorem listMapIdOn {α : Type} (l : List α) (f : α → α) (h : ∀ x ∈ l, f x = x) :
    l.map f = l := by
  induction l with
  | nil => rfl
  | cons a t ih =>
    simp only [List.map_cons]
    rw [h a (by simp), ih (fun x hx => h x (by simp [hx]))]

theorem getCol_cons_hit (e : String × List PyVal) (cols : List (String × List PyVal))
    (n : String) (he : e.1 = n) : (Df.mk (e :: cols)).getCol n = some e.2 := by
  simp [Df.getCol, List.find?_cons_of_pos, he]

theorem getCol_cons_miss (e : String × List PyVal) (cols : List (String × List PyVal))
    (n : String) (he : e.1 ≠ n) : (Df.mk (e :: cols)).getCol n = (Df.mk cols).getCol n := by
  simp [Df.getCol, List.find?_cons_of_neg, he]

theorem hasCol_iff_mem (df : Df) (n : String) : df.hasCol n = true ↔ n ∈ df.names := by
  obtain ⟨cols⟩ := df
  induction cols with
  | nil => simp [Df.hasCol, Df.getCol, Df.names]
  | cons e t ih =>
    by_cases he : e.1 = n
    · simp [Df.hasCol, getCol_cons_hit e t n he, Df.names, he]
    · rw [show (Df.mk (e :: t)).hasCol n = (Df.mk t).hasCol n by
        simp [Df.hasCol, getCol_cons_miss e t n he]]
      simp only [Df.names, List.map_cons, List.mem_cons]
      rw [ih]
      simp only [Df.names]
      constructor
      · exact fun h => Or.inr h
      · rintro (h | h)
        · exact absurd h.symm he
        · exact h

theorem getCol_filter_keep (p : String × List PyVal → Bool) (cols : List (String × List PyVal))
    (n : String) (v : List PyVal)
    (hid : (Df.mk cols).getCol n = some v) (hp : p (n, v) = true) :
    (Df.mk (cols.filter p)).getCol n = some v := by
  induction cols with
  | nil => simp [Df.getCol] at hid
  | cons e t ih =>
    by_cases he : e.1 = n
    · obtain ⟨e1, e2⟩ := e
      simp only at he
      subst he
      rw [getCol_cons_hit (e1, e2) t e1 rfl] at hid
      have hv : e2 = v := Option.some.inj hid
      subst hv
      rw [List.filter_cons_of_pos hp]
      exact getCol_cons_hit (e1, e2) (t.filter p) e1 rfl
    · rw [getCol_cons_miss e t n he] at hid
      by_cases hpe : p e = true
      · rw [List.filter_cons_of_pos hpe]
        rw [getCol_cons_miss e (t.filter p) n he]
        exact ih hid
      · rw [List.filter_cons_of_neg (by simpa using hpe)]
        exact ih hid

theorem getCol_dropCols_keep (df : Df) (ns : List String) (n : String) (v : List PyVal)
    (hid : df.getCol n = some v) (hn : n ∉ ns) :
    (df.dropCols ns).getCol n = some v := by
  obtain ⟨cols⟩ := df
  simp only [Df.dropCols]
  exact getCol_filter_keep _ cols n v hid (by simpa using hn)

theorem getCol_mapReplace (cols : List (String × List PyVal)) (m n : String) (cs : List PyVal)
    (h : m ≠ n) :
    (Df.mk (cols.map (fun c => if c.1 == m then (c.1, cs) else c))).getCol n
      = (Df.mk cols).getCol n := by
  induction cols with
  | nil => rfl
  | cons e t ih =>
    simp only [List.map_cons]
    by_cases hem : e.1 = m
    · have hen : e.1 ≠ n := fun hh => h (hem ▸ hh)
      rw [show (if e.1 == m then (e.1, cs) else e) = (e.1, cs) by simp [hem]]
      rw [getCol_cons_miss (e.1, cs) _ n hen, getCol_cons_miss e t n hen]
      exact ih
    · rw [show (if e.1 == m then (e.1, cs) else e) = e by simp [hem]]
      by_cases hen : e.1 = n
      · rw [getCol_cons_hit _ _ n hen, getCol_cons_hit e t n hen]
      · rw [getCol_cons_miss _ _ n hen, getCol_cons_miss e t n hen]
        exact ih

theorem getCol_append_one (cols : List (String × List PyVal)) (m n : String) (cs : List PyVal)
    (h : m ≠ n) :
    (Df.mk (cols ++ [(m, cs)])).getCol n = (Df.mk cols).getCol n := by
  induction cols with
  | nil =>
    show (Df.mk [(m, cs)]).getCol n = (Df.mk []).getCol n
    rw [getCol_cons_miss (m, cs) [] n h]
  | cons e t ih =>
    show (Df.mk (e :: (t ++ [(m, cs)]))).getCol n = (Df.mk (e :: t)).getCol n
    by_cases hen : e.1 = n
    · rw [getCol_cons_hit _ _ n hen, getCol_cons_hit e t n hen]
    · rw [getCol_cons_miss _ _ n hen, getCol_cons_miss e t n hen]
      exact ih

theorem getCol_setCol_ne (df : Df) (m n : String) (cs : List PyVal) (h : m ≠ n) :
    (df.setCol m cs).getCol n = df.getCol n := by
  obtain ⟨cols⟩ := df
  simp only [Df.setCol]
  by_cases hc : (Df.mk cols).hasCol m
  · simp only [hc, if_true]
    exact getCol_mapReplace cols m n cs h
  · simp only [hc, if_false]
    exact getCol_append_one cols m n cs h

theorem getCol_setCol_self (df : Df) (m : String) (cs : List PyVal) :
    (df.setCol m cs).getCol m = some cs := by
  obtain ⟨cols⟩ := df
  simp only [Df.setCol]
  by_cases hc : (Df.mk cols).hasCol m
  · simp only [hc, if_true]
    simp only [Df.hasCol, Option.isSome_iff_exists] at hc
    obtain ⟨v, hv⟩ := hc
    induction cols with
    | nil => simp [Df.getCol] at hv
    | cons e t ih =>
      simp only [List.map_cons]
      by_cases hem : e.1 = m
      · rw [show (if e.1 == m then (e.1, cs) else e) = (m, cs) by simp [hem]]
        exact getCol_cons_hit (m, cs) _ m rfl
      · rw [show (if e.1 == m then (e.1, cs) else e) = e by simp [hem]]
        rw [getCol_cons_miss e t m hem] at hv
        rw [getCol_cons_miss e _ m hem]
        exact ih hv
  · simp only [hc, if_false]
    induction cols with
    | nil => exact getCol_cons_hit (m, cs) [] m rfl
    | cons e t ih =>
      have hem : e.1 ≠ m := by
        intro hh
        apply hc
        simp [Df.hasCol, getCol_cons_hit e t m hh]
      show (Df.mk (e :: (t ++ [(m, cs)]))).getCol m = some cs
      rw [getCol_cons_miss e _ m hem]
      apply ih
      intro hct
      apply hc
      simp only [Df.hasCol, Option.isSome_iff_exists] at hct ⊢
      obtain ⟨v, hv⟩ := hct
      exact ⟨v, by rw [getCol_cons_miss e t m hem]; exact hv⟩

theorem hasCol_setCol_self (df : Df) (m : String) (cs : List PyVal) :
    (df.setCol m cs).hasCol m = true := by
  simp [Df.hasCol, getCol_setCol_self]

theorem hasCol_setCol_ne (df : Df) (m n : String) (cs : List PyVal) (h : m ≠ n) :
    (df.setCol m cs).hasCol n = df.hasCol n := by
  simp [Df.hasCol, getCol_setCol_ne df m n cs h]

theorem getCol_fillna_ne (df : Df) (m n : String) (v : PyVal) (h : m ≠ n) :
    (fillnaCol df m v).getCol n = df.getCol n := by
  simp only [fillnaCol]
  cases hm : df.getCol m with
  | none => rfl
  | some cs => exact getCol_setCol_ne df m n _ h

/-- Names of a frame after setCol: membership view. -/
theorem mem_names_setCol (df : Df) (m x : String) (cs : List PyVal)
    (h : x ∈ (df.setCol m cs).names) : x ∈ df.names ∨ x = m := by
  obtain ⟨cols⟩ := df
  simp only [Df.setCol] at h
  by_cases hc : (Df.mk cols).hasCol m
  · rw [if_pos hc] at h
    left
    simp only [Df.names, List.map_map] at h
    simp only [Df.names]
    obtain ⟨e, he, hx⟩ := List.mem_map.mp h
    apply List.mem_map.mpr
    refine ⟨e, he, ?_⟩
    by_cases hem : e.1 = m
    · simpa [hem] using hx
    · simpa [hem] using hx
  · rw [if_neg hc] at h
    simp only [Df.names, List.map_append, List.mem_append] at h
    rcases h with h | h
    · exact Or.inl h
    · simp at h
      exact Or.inr h

theorem mem_names_of_mem_setCol_names (df : Df) (m x : String) (cs : List PyVal)
    (h : x ∈ df.names) : x ∈ (df.setCol m cs).names := by
  obtain ⟨cols⟩ := df
  simp only [Df.setCol]
  by_cases hc : (Df.mk cols).hasCol m
  · rw [if_pos hc]
    simp only [Df.names] at h ⊢
    obtain ⟨e, he, hx⟩ := List.mem_map.mp h
    rw [List.map_map]
    apply List.mem_map.mpr
    refine ⟨e, he, ?_⟩
    by_cases hem : e.1 = m
    · simpa [hem] using hx
    · simpa [hem] using hx
  · rw [if_neg hc]
    simp only [Df.names, List.map_append, List.mem_append]
    exact Or.inl h

theorem mem_names_filter (cols : List (String × List PyVal)) (p) (x : String)
    (h : x ∈ (Df.mk (cols.filter p)).names) : x ∈ (Df.mk cols).names := by
  simp only [Df.names] at h ⊢
  obtain ⟨e, he, hx⟩ := List.mem_map.mp h
  exact List.mem_map.mpr ⟨e, List.mem_of_mem_filter he, hx⟩

theorem mem_names_dropCols (df : Df) (ns : List String) (x : String)
    (h : x ∈ (df.dropCols ns).names) : x ∈ df.names := by
  obtain ⟨cols⟩ := df
  exact mem_names_filter cols _ x h

theorem mem_names_dropFullyNull (df : Df) (x : String)
    (h : x ∈ (drop_fully_null_columns df).names) : x ∈ df.names := by
  obtain ⟨cols⟩ := df
  exact mem_names_filter cols _ x h

theorem mem_names_fillna (df : Df) (m x : String) (v : PyVal)
    (h : x ∈ (fillnaCol df m v).names) : x ∈ df.names ∨ x = m := by
  simp only [fillnaCol] at h
  cases hm : df.getCol m with
  | none => rw [hm] at h; exact Or.inl h
  | some cs => rw [hm] at h; exact mem_names_setCol df m x _ h

/-- Standardization preserves a column whose name is a fixed point,
provided no other column standardizes onto that name. -/
theorem getCol_std (df : Df) (n : String) (hfix : stdName n = n)
    (hcol : ∀ e ∈ df.cols, stdName e.1 = n → e.1 = n) :
    (standardize_column_names df).getCol n = df.getCol n := by
  obtain ⟨cols⟩ := df
  simp only [standardize_column_names]
  induction cols with
  | nil => rfl
  | cons e t ih =>
    simp only [List.map_cons]
    by_cases hen : e.1 = n
    · rw [getCol_cons_hit (stdName e.1, e.2) _ n (by simp [hen, hfix]),
        getCol_cons_hit e t n hen]
    · have hsn : stdName e.1 ≠ n := fun hh => hen (hcol e (by simp) hh)
      rw [getCol_cons_miss (stdName e.1, e.2) _ n hsn, getCol_cons_miss e t n hen]
      exact ih (fun e2 he2 => hcol e2 (by simp [he2]))

theorem maskFilter_nil {α : Type} (m : List Bool) : maskFilter m ([] : List α) = [] := by
  cases m with
  | nil => rfl
  | cons b t => cases b <;> rfl

theorem keepFirstSpec_nil : keepFirstSpec [] = [] := by simp [keepFirstSpec]

theorem keepFirstSpec_cons (a : Scalar) (t : List Scalar) :
    keepFirstSpec (a :: t) = a :: keepFirstSpec (t.filter (fun b => b != a)) := by
  simp [keepFirstSpec]

theorem maskFilter_keepMask_spec (l : List Scalar) :
    ∀ seen, maskFilter (keepMask seen l) l
      = keepFirstSpec (l.filter (fun k => !(seen.contains k))) := by
  induction l with
  | nil => intro seen; simp only [List.filter_nil, keepFirstSpec_nil]; rfl
  | cons a t ih =>
    intro seen
    have hmask : keepMask seen (a :: t) = (!(seen.contains a)) :: keepMask (a :: seen) t := rfl
    by_cases hs : a ∈ seen
    · have hc : seen.contains a = true := by simpa using hs
      rw [hmask, hc]
      rw [show maskFilter ((!true) :: keepMask (a :: seen) t) (a :: t)
          = maskFilter (keepMask (a :: seen) t) t from rfl]
      rw [ih (a :: seen)]
      congr 1
      rw [List.filter_cons_of_neg (by simpa using hs)]
      apply List.filter_congr
      intro k hk
      by_cases hka : k = a
      · subst hka
        simp [hs]
      · simp [hka]
    · have hc : seen.contains a = false := by simpa using hs
      rw [hmask, hc]
      rw [show maskFilter ((!false) :: keepMask (a :: seen) t) (a :: t)
          = a :: maskFilter (keepMask (a :: seen) t) t from rfl]
      rw [ih (a :: seen)]
      rw [List.filter_cons_of_pos (by simpa using hs)]
      rw [keepFirstSpec_cons]
      congr 1
      congr 1
      rw [List.filter_filter]
      apply List.filter_congr
      intro k hk
      by_cases hka : k = a
      · subst hka
        simp
      · simp [hka, Bool.and_comm]

theorem mem_filter_ne (t : List Scalar) (a k : Scalar) :
    k ∈ t.filter (fun b => b != a) ↔ k ∈ t ∧ k ≠ a := by
  simp [List.mem_filter]

theorem mem_keepFirstSpec (k : Scalar) (l : List Scalar) :
    k ∈ keepFirstSpec l ↔ k ∈ l := by
  induction l using keepFirstSpec.induct with
  | case1 => simp [keepFirstSpec_nil]
  | case2 a t ih =>
    rw [keepFirstSpec_cons]
    constructor
    · intro h
      rcases List.mem_cons.mp h with h | h
      · simp [h]
      · rcases (mem_filter_ne t a k).mp (ih.mp h) with ⟨hmem, _⟩
        simp [hmem]
    · intro h
      rcases List.mem_cons.mp h with h | h
      · simp [h]
      · by_cases hka : k = a
        · simp [hka]
        · exact List.mem_cons.mpr (Or.inr (ih.mpr ((mem_filter_ne t a k).mpr ⟨h, hka⟩)))

theorem count_keepFirstSpec (k : Scalar) (l : List Scalar) (h : k ∈ l) :
    (keepFirstSpec l).count k = 1 := by
  induction l using keepFirstSpec.induct with
  | case1 => simp at h
  | case2 a t ih =>
    rw [keepFirstSpec_cons]
    by_cases hka : k = a
    · subst hka
      rw [List.count_cons_self]
      have hnot : k ∉ keepFirstSpec (t.filter (fun b => b != k)) := by
        rw [mem_keepFirstSpec]
        simp [mem_filter_ne]
      rw [List.count_eq_zero.mpr hnot]
    · rcases List.mem_cons.mp h with h2 | h2
      · exact absurd h2 hka
      · rw [List.count_cons_of_ne (by simpa using hka)]
        exact ih ((mem_filter_ne t a k).mpr ⟨h2, hka⟩)

theorem nodup_keepFirstSpec (l : List Scalar) : (keepFirstSpec l).Nodup := by
  induction l using keepFirstSpec.induct with
  | case1 => simp [keepFirstSpec_nil]
  | case2 a t ih =>
    rw [keepFirstSpec_cons]
    refine List.nodup_cons.mpr ⟨?_, ih⟩
    rw [mem_keepFirstSpec]
    simp [mem_filter_ne]

theorem keepFirstSpec_of_nodup (l : List Scalar) (h : l.Nodup) : keepFirstSpec l = l := by
  induction l with
  | nil => exact keepFirstSpec_nil
  | cons a t ih =>
    rw [keepFirstSpec_cons]
    obtain ⟨ha, ht⟩ := List.nodup_cons.mp h
    rw [show t.filter (fun b => b != a) = t from
      List.filter_eq_self.mpr (fun b hb => by
        simp only [bne_iff_ne, ne_eq, decide_eq_true_eq]
        exact fun hh => ha (hh ▸ hb))]
    rw [ih ht]

theorem keepFirstSpec_idem (l : List Scalar) :
    keepFirstSpec (keepFirstSpec l) = keepFirstSpec l :=
  keepFirstSpec_of_nodup _ (nodup_keepFirstSpec l)

theorem keepMask_length (l : List Scalar) : ∀ seen, (keepMask seen l).length = l.length := by
  induction l with
  | nil => intro seen; rfl
  | cons a t ih => intro seen; simp [keepMask, ih]

theorem keepMask_nodup (l : List Scalar) :
    ∀ seen, l.Nodup → (∀ k ∈ l, k ∉ seen) → keepMask seen l = List.replicate l.length true := by
  induction l with
  | nil => intro seen _ _; rfl
  | cons a t ih =>
    intro seen hnd hno
    obtain ⟨ha, ht⟩ := List.nodup_cons.mp hnd
    rw [show keepMask seen (a :: t) = (!(seen.contains a)) :: keepMask (a :: seen) t from rfl]
    rw [show (seen.contains a) = false by simpa using hno a (by simp)]
    rw [List.length_cons, List.replicate_succ]
    congr 1
    apply ih (a :: seen) ht
    intro k hk
    simp only [List.mem_cons]
    rintro (h | h)
    · exact ha (h ▸ hk)
    · exact hno k (by simp [hk]) h

theorem maskFilter_replicate_true {α : Type} (cs : List α) :
    maskFilter (List.replicate cs.length true) cs = cs := by
  induction cs with
  | nil => rfl
  | cons c t ih => simpa [List.replicate_succ, maskFilter] using ih

theorem idKeys_maskFilter (m : List Bool) :
    ∀ (ids : List PyVal) (ks : List Scalar), idKeys ids = some ks →
      idKeys (maskFilter m ids) = some (maskFilter m ks) := by
  induction m with
  | nil =>
    intro ids ks h
    have h1 : maskFilter ([] : List Bool) ids = [] := by
      cases ids <;> rfl
    have h2 : maskFilter ([] : List Bool) ks = [] := by
      cases ks <;> rfl
    rw [h1, h2]
    rfl
  | cons b mt ih =>
    intro ids ks h
    cases ids with
    | nil =>
      cases ks with
      | nil => cases b <;> rfl
      | cons k kt => exact absurd h (by simp [idKeys])
    | cons c ct =>
      simp only [idKeys] at h
      cases hc : idKey c with
      | none => rw [hc] at h; simp at h
      | some k =>
        rw [hc] at h
        cases hct : idKeys ct with
        | none => rw [hct] at h; simp at h
        | some kt =>
          rw [hct] at h
          simp only [Option.some.injEq] at h
          subst h
          cases b with
          | true =>
            rw [show maskFilter (true :: mt) (c :: ct) = c :: maskFilter mt ct from rfl]
            rw [show maskFilter (true :: mt) (k :: kt) = k :: maskFilter mt kt from rfl]
            simp only [idKeys, hc, ih ct kt hct]
          | false =>
            rw [show maskFilter (false :: mt) (c :: ct) = maskFilter mt ct from rfl]
            rw [show maskFilter (false :: mt) (k :: kt) = maskFilter mt kt from rfl]
            exact ih ct kt hct

/-! ## Except helpers and cleaning-pipeline preservation lemmas -/
theorem except_bind_ok {α β : Type} (x : Except String α) (f : α → Except String β) (b : β)
    (h : x.bind f = Except.ok b) : ∃ a, x = Except.ok a ∧ f a = Except.ok b := by
  cases x with
  | error e => simp [Except.bind] at h
  | ok a => exact ⟨a, rfl, by simpa [Except.bind] using h⟩

theorem except_map_ok {α β : Type} (x : Except String α) (f : α → β) (b : β)
    (h : x.map f = Except.ok b) : ∃ a, x = Except.ok a ∧ f a = b := by
  cases x with
  | error e => simp [Except.map] at h
  | ok a =>
    refine ⟨a, rfl, ?_⟩
    simp only [Except.map] at h
    exact (Except.ok.inj h)

theorem except_bind_of_ok {α β : Type} (x : Except String α) (f : α → Except String β) (a : α)
    (h : x = Except.ok a) : x.bind f = f a := by
  rw [h]; rfl

theorem getCol_cleanA (df : Df) (n : String) (v : List PyVal)
    (hget : df.getCol n = some v)
    (hnull : v.all isNA = false)
    (hnoisy : n ∉ noisy_nested_columns)
    (hn1 : n ≠ "city") (hn2 : n ≠ "neighbourhood") :
    (cleanA df).getCol n = some v := by
  simp only [cleanA]
  have h1 : (drop_fully_null_columns df).getCol n = some v := by
    obtain ⟨cols⟩ := df
    simp only [drop_fully_null_columns]
    exact getCol_filter_keep _ cols n v hget (by simp [hnull])
  have h2 : (safe_drop (drop_fully_null_columns df) noisy_nested_columns).getCol n = some v := by
    simp only [safe_drop]
    exact getCol_dropCols_keep _ _ n v h1 hnoisy
  set df2 := safe_drop (drop_fully_null_columns df) noisy_nested_columns with hdf2
  by_cases hc : df2.hasCol "locations"
  · rw [if_pos hc]
    rw [getCol_setCol_ne _ _ _ _ (fun hh => hn2 hh.symm),
      getCol_setCol_ne _ _ _ _ (fun hh => hn1 hh.symm)]
    exact h2
  · rw [if_neg hc]
    exact h2

theorem getCol_cleanAddr (df out : Df) (n : String)
    (hn1 : n ≠ "venue_street") (hn2 : n ≠ "venue_line2") (hn3 : n ≠ "venue_city")
    (h : cleanAddr df = Except.ok out) : out.getCol n = df.getCol n := by
  simp only [cleanAddr] at h
  by_cases hc : df.hasCol addr_col
  · rw [if_pos hc] at h
    by_cases he : (((df.getCol addr_col).getD []).map parse_address).isEmpty
    · rw [if_pos he] at h
      simp at h
    · rw [if_neg he] at h
      simp only [Except.ok.injEq] at h
      subst h
      rw [getCol_setCol_ne _ _ _ _ (fun hh => hn3 hh.symm),
        getCol_setCol_ne _ _ _ _ (fun hh => hn2 hh.symm),
        getCol_setCol_ne _ _ _ _ (fun hh => hn1 hh.symm)]
  · rw [if_neg hc] at h
    simp only [Except.ok.injEq] at h
    subst h
    rfl

theorem getCol_cleanTags (df out : Df) (n : String)
    (hn1 : n ≠ "tags_list") (hn2 : n ≠ "tags_string")
    (h : cleanTags df = Except.ok out) : out.getCol n = df.getCol n := by
  simp only [cleanTags] at h
  by_cases hc : df.hasCol "tags"
  · rw [if_pos hc] at h
    cases hm : ((df.getCol "tags").getD []).mapM extract_tags with
    | error e => rw [hm] at h; simp at h
    | ok res =>
      rw [hm] at h
      simp only at h
      by_cases he : res.isEmpty
      · rw [if_pos he] at h
        simp at h
      · rw [if_neg he] at h
        simp only [Except.ok.injEq] at h
        subst h
        rw [getCol_setCol_ne _ _ _ _ (fun hh => hn2 hh.symm),
          getCol_setCol_ne _ _ _ _ (fun hh => hn1 hh.symm)]
  · rw [if_neg hc] at h
    simp only [Except.ok.injEq] at h
    subst h
    rfl

theorem getCol_cleanB (df : Df) (n : String) (v : List PyVal)
    (hget : df.getCol n = some v)
    (hsales : n ∉ sales_timezone_columns)
    (hraw : n ∉ ["locations", "tags", addr_col])
    (hpub : n ≠ "published")
    (hfix : stdName n = n)
    (hnames : ∀ x ∈ df.names, stdName x = n → x = n)
    (hfills : n ∉ (["summary", "venue_city", "city", "neighbourhood"] : List String)) :
    (cleanB df).getCol n = some v := by
  simp only [cleanB]
  have h1 : (safe_drop df sales_timezone_columns).getCol n = some v :=
    getCol_dropCols_keep _ _ n v hget hsales
  have h2 : (safe_drop (safe_drop df sales_timezone_columns) ["locations", "tags", addr_col]).getCol n = some v :=
    getCol_dropCols_keep _ _ n v h1 hraw
  set df2 := safe_drop (safe_drop df sales_timezone_columns) ["locations", "tags", addr_col] with hdf2
  have hnames2 : ∀ x ∈ df2.names, stdName x = n → x = n := by
    intro x hx
    exact hnames x (mem_names_dropCols _ _ _ (mem_names_dropCols _ _ _ hx))
  have step8 : ∃ df3 : Df, (if df2.hasCol "published" then
        df2.setCol "published" (((df2.getCol "published").getD []).map to_utc_naive_cell)
      else df2) = df3 ∧ df3.getCol n = some v ∧
      (∀ x ∈ df3.names, stdName x = n → x = n) := by
    by_cases hc : df2.hasCol "published"
    · rw [if_pos hc]
      refine ⟨_, rfl, ?_, ?_⟩
      · rw [getCol_setCol_ne _ _ _ _ (fun hh => hpub hh.symm)]
        exact h2
      · intro x hx hstd
        rcases mem_names_setCol _ _ _ _ hx with hmem | hpubx
        · exact hnames2 x hmem hstd
        · subst hpubx
          exact absurd hstd.symm (by intro hh; exact hpub (by rw [hh]; rfl))
    · rw [if_neg hc]
      exact ⟨df2, rfl, h2, hnames2⟩
  obtain ⟨df3, hdf3, hget3, hnames3⟩ := step8
  rw [hdf3]
  have hstd : (standardize_column_names df3).getCol n = some v := by
    rw [getCol_std df3 n hfix (fun e he => hnames3 e.1 (List.mem_map.mpr ⟨e, he, rfl⟩))]
    exact hget3
  have hno : ∀ m ∈ (["summary", "venue_city", "city", "neighbourhood"] : List String), m ≠ n := by
    intro m hm heq
    exact hfills (heq ▸ hm)
  rw [getCol_fillna_ne _ _ _ _ (hno "neighbourhood" (by simp)),
    getCol_fillna_ne _ _ _ _ (hno "city" (by simp)),
    getCol_fillna_ne _ _ _ _ (hno "venue_city" (by simp)),
    getCol_fillna_ne _ _ _ _ (hno "summary" (by simp))]
  exact hstd

theorem mem_names_cleanA (df : Df) (x : String)
    (h : x ∈ (cleanA df).names) : x ∈ df.names ∨ x ∈ (["city", "neighbourhood"] : List String) := by
  simp only [cleanA] at h
  set df2 := safe_drop (drop_fully_null_columns df) noisy_nested_columns with hdf2
  by_cases hc : df2.hasCol "locations"
  · rw [if_pos hc] at h
    rcases mem_names_setCol _ _ _ _ h with h2 | h2
    · rcases mem_names_setCol _ _ _ _ h2 with h3 | h3
      · exact Or.inl (mem_names_dropFullyNull _ _ (mem_names_dropCols _ _ _ h3))
      · exact Or.inr (by simp [h3])
    · exact Or.inr (by simp [h2])
  · rw [if_neg hc] at h
    exact Or.inl (mem_names_dropFullyNull _ _ (mem_names_dropCols _ _ _ h))

theorem mem_names_cleanAddr (df out : Df) (x : String)
    (h : cleanAddr df = Except.ok out) (hx : x ∈ out.names) :
    x ∈ df.names ∨ x ∈ (["venue_street", "venue_line2", "venue_city"] : List String) := by
  simp only [cleanAddr] at h
  by_cases hc : df.hasCol addr_col
  · rw [if_pos hc] at h
    by_cases he : (((df.getCol addr_col).getD []).map parse_address).isEmpty
    · rw [if_pos he] at h
      simp at h
    · rw [if_neg he] at h
      simp only [Except.ok.injEq] at h
      subst h
      rcases mem_names_setCol _ _ _ _ hx with h2 | h2
      · rcases mem_names_setCol _ _ _ _ h2 with h3 | h3
        · rcases mem_names_setCol _ _ _ _ h3 with h4 | h4
          · exact Or.inl h4
          · exact Or.inr (by simp [h4])
        · exact Or.inr (by simp [h3])
      · exact Or.inr (by simp [h2])
  · rw [if_neg hc] at h
    simp only [Except.ok.injEq] at h
    subst h
    exact Or.inl hx

theorem mem_names_cleanTags (df out : Df) (x : String)
    (h : cleanTags df = Except.ok out) (hx : x ∈ out.names) :
    x ∈ df.names ∨ x ∈ (["tags_list", "tags_string"] : List String) := by
  simp only [cleanTags] at h
  by_cases hc : df.hasCol "tags"
  · rw [if_pos hc] at h
    cases hm : ((df.getCol "tags").getD []).mapM extract_tags with
    | error e => rw [hm] at h; simp at h
    | ok res =>
      rw [hm] at h
      simp only at h
      by_cases he : res.isEmpty
      · rw [if_pos he] at h
        simp at h
      · rw [if_neg he] at h
        simp only [Except.ok.injEq] at h
        subst h
        rcases mem_names_setCol _ _ _ _ hx with h2 | h2
        · rcases mem_names_setCol _ _ _ _ h2 with h3 | h3
          · exact Or.inl h3
          · exact Or.inr (by simp [h3])
        · exact Or.inr (by simp [h2])
  · rw [if_neg hc] at h
    simp only [Except.ok.injEq] at h
    subst h
    exact Or.inl hx

/-- Steps 1-10 of the cleaning stage leave the id column untouched. -/
theorem getCol_id_cleanSteps (df mid : Df) (ids : List PyVal)
    (hid : df.getCol "id" = some ids)
    (hna : ids.all isNA = false)
    (hnames : ∀ x ∈ df.names, stdName x = "id" → x = "id")
    (hmid : cleanSteps df = Except.ok mid) :
    mid.getCol "id" = some ids := by
  simp only [cleanSteps] at hmid
  obtain ⟨d2, hd2, hmidB⟩ := except_map_ok _ _ _ hmid
  obtain ⟨d1, hd1, hd2ok⟩ := except_bind_ok _ _ _ hd2
  have hA : (cleanA df).getCol "id" = some ids :=
    getCol_cleanA df "id" ids hid hna (by decide) (by decide) (by decide)
  have h1 : d1.getCol "id" = some ids := by
    rw [getCol_cleanAddr _ _ _ (by decide) (by decide) (by decide) hd1]
    exact hA
  have h2 : d2.getCol "id" = some ids := by
    rw [getCol_cleanTags _ _ _ (by decide) (by decide) hd2ok]
    exact h1
  have hnames2 : ∀ x ∈ d2.names, stdName x = "id" → x = "id" := by
    intro x hx hstd
    rcases mem_names_cleanTags _ _ _ hd2ok hx with hx1 | hx1
    · rcases mem_names_cleanAddr _ _ _ hd1 hx1 with hx2 | hx2
      · rcases mem_names_cleanA _ _ hx2 with hx3 | hx3
        · exact hnames x hx3 hstd
        · exfalso
          rcases List.mem_cons.mp hx3 with hh | hh
          · subst hh; exact absurd hstd (by decide)
          · simp only [List.mem_singleton] at hh
            subst hh; exact absurd hstd (by decide)
      · exfalso
        rcases List.mem_cons.mp hx2 with hh | hx2b
        · subst hh; exact absurd hstd (by decide)
        rcases List.mem_cons.mp hx2b with hh | hx2c
        · subst hh; exact absurd hstd (by decide)
        simp only [List.mem_singleton] at hx2c
        subst hx2c; exact absurd hstd (by decide)
    · exfalso
      rcases List.mem_cons.mp hx1 with hh | hx1b
      · subst hh; exact absurd hstd (by decide)
      simp only [List.mem_singleton] at hx1b
      subst hx1b; exact absurd hstd (by decide)
  rw [← hmidB]
  exact getCol_cleanB d2 "id" ids h2 (by decide) (by decide) (by decide) (by decide) hnames2
    (by decide)

theorem getCol_mapCells (cols : List (String × List PyVal)) (f : List PyVal → List PyVal)
    (n : String) :
    (Df.mk (cols.map (fun c => (c.1, f c.2)))).getCol n = ((Df.mk cols).getCol n).map f := by
  induction cols with
  | nil => rfl
  | cons e t ih =>
    by_cases he : e.1 = n
    · simp only [List.map_cons]
      rw [getCol_cons_hit _ _ _ (by simpa using he), getCol_cons_hit e t _ he]
      rfl
    · simp only [List.map_cons]
      rw [getCol_cons_miss _ _ _ (by simpa using he), getCol_cons_miss e t _ he]
      exact ih

/-- C9: an input table holding an id column (with hashable ids, not all
null, and no other column standardizing to the name id) cleans to a
table with exactly one row per distinct id key, each the first
occurrence in input order: every column is filtered by one keep-first
mask computed from the ids, the surviving id keys are the keep-first
deduplication of the input id keys, each input key occurs exactly once,
and re-deduplicating (as the feature-engineering stage does) changes
nothing. -/
theorem c9_dedup_first_occurrence (df mid : Df) (ids : List PyVal) (ks : List Scalar)
    (hid : df.getCol "id" = some ids)
    (hna : ids.all isNA = false)
    (hkeys : idKeys ids = some ks)
    (hnames : ∀ x ∈ df.names, stdName x = "id" → x = "id")
    (hmid : cleanSteps df = Except.ok mid) :
    ∃ out, clean_events df = Except.ok out ∧
      out.cols = mid.cols.map (fun c => (c.1, maskFilter (keepMask [] ks) c.2)) ∧
      out.getCol "id" = some (dedupIds ks ids) ∧
      idKeys (dedupIds ks ids) = some (keepFirstSpec ks) ∧
      (∀ k ∈ ks, (keepFirstSpec ks).count k = 1) ∧
      keepFirstSpec (keepFirstSpec ks) = keepFirstSpec ks := by
  have hmidid : mid.getCol "id" = some ids :=
    getCol_id_cleanSteps df mid ids hid hna hnames hmid
  have hdedup : drop_duplicates_by_id mid =
      Except.ok ⟨mid.cols.map (fun c => (c.1, maskFilter (keepMask [] ks) c.2))⟩ := by
    simp only [drop_duplicates_by_id, hmidid, hkeys]
  refine ⟨_, ?_, rfl, ?_, ?_, ?_, ?_⟩
  · simp only [clean_events]
    rw [except_bind_of_ok _ _ _ hmid]
    exact hdedup
  · rw [getCol_mapCells mid.cols _ "id", hmidid]
    rfl
  · have := idKeys_maskFilter (keepMask [] ks) ids ks hkeys
    rw [show maskFilter (keepMask [] ks) ks = keepFirstSpec ks by
      have h := maskFilter_keepMask_spec ks []
      simpa using h] at this
    exact this
  · intro k hk
    exact count_keepFirstSpec k ks hk
  · exact keepFirstSpec_idem ks

theorem c9_witness :
    ∃ out, clean_events c9df = Except.ok out ∧
      out.cols = c9df.cols.map (fun c =>
        (c.1, maskFilter (keepMask [] [Scalar.str "a", Scalar.str "b", Scalar.str "a"]) c.2)) ∧
      out.getCol "id" = some (dedupIds [Scalar.str "a", Scalar.str "b", Scalar.str "a"]
        [PyVal.str "a", PyVal.str "b", PyVal.str "a"]) ∧
      idKeys (dedupIds [Scalar.str "a", Scalar.str "b", Scalar.str "a"]
        [PyVal.str "a", PyVal.str "b", PyVal.str "a"])
        = some (keepFirstSpec [Scalar.str "a", Scalar.str "b", Scalar.str "a"]) ∧
      (∀ k ∈ [Scalar.str "a", Scalar.str "b", Scalar.str "a"],
        (keepFirstSpec [Scalar.str "a", Scalar.str "b", Scalar.str "a"]).count k = 1) ∧
      keepFirstSpec (keepFirstSpec [Scalar.str "a", Scalar.str "b", Scalar.str "a"])
        = keepFirstSpec [Scalar.str "a", Scalar.str "b", Scalar.str "a"] := by
  have h := c9_dedup_first_occurrence c9df c9df
    [PyVal.str "a", PyVal.str "b", PyVal.str "a"]
    [Scalar.str "a", Scalar.str "b", Scalar.str "a"]
    (by rfl) (by rfl) (by rfl)
    (by intro x hx hstd; fin_cases hx <;> first | rfl | exact absurd hstd (by decide))
    (by rfl)
  exact h

/-! ## Helper lemmas for the tag extractor claims -/
theorem tagNames_strTyped (entries : List PyVal) (h : strTypedEntries entries = true) :
    tagNames entries = (claimKeptNames entries).map PyVal.str := by
  induction entries with
  | nil => rfl
  | cons e t ih =>
    simp only [strTypedEntries, List.all_cons, Bool.and_eq_true] at h
    obtain ⟨he, ht⟩ := h
    have iht := ih ht
    cases e with
    | dict d =>
      simp only [strTypedEntry] at he
      cases hv : dictGet d "display_name" with
      | none => simp only [tagNames, claimKeptNames, hv]; exact iht
      | some v =>
        rw [hv] at he
        cases v with
        | vnone => simp only [tagNames, claimKeptNames, hv, pyTruthy]; exact iht
        | str s =>
          by_cases hse : s = ""
          · subst hse
            simp only [tagNames, claimKeptNames, hv, pyTruthy]
            simpa using iht
          · simp only [tagNames, claimKeptNames, hv, pyTruthy]
            rw [if_pos (by simpa using hse), if_neg hse]
            rw [List.map_cons, iht]
        | nan => simp at he
        | int n => simp at he
        | float q => simp at he
        | bool b => simp at he
        | dt y mo dd hh mi ss => simp at he
        | list l => simp at he
        | dict d2 => simp at he
    | vnone => simp only [tagNames, claimKeptNames]; exact iht
    | nan => simp only [tagNames, claimKeptNames]; exact iht
    | str s => simp only [tagNames, claimKeptNames]; exact iht
    | int n => simp only [tagNames, claimKeptNames]; exact iht
    | float q => simp only [tagNames, claimKeptNames]; exact iht
    | bool b => simp only [tagNames, claimKeptNames]; exact iht
    | dt y mo dd hh mi ss => simp only [tagNames, claimKeptNames]; exact iht
    | list l => simp only [tagNames, claimKeptNames]; exact iht

theorem pyJoinComma_map_str (names : List String) :
    pyJoinComma (names.map PyVal.str) = .ok (String.intercalate ", " names) := by
  suffices hmap : (names.map PyVal.str).mapM strCellOrTypeError = Except.ok names by
    simp only [pyJoinComma]
    rw [hmap]
    rfl
  induction names with
  | nil => rfl
  | cons s t ih =>
    rw [List.map_cons, List.mapM_cons]
    rw [show strCellOrTypeError (PyVal.str s) = Except.ok s from rfl]
    rw [ih]
    rfl

/-! ## Claim C10 -/
/-- C10: on entries whose display_name values are strings, null or
absent, extract_tags keeps exactly the entries with a present, non-null,
non-empty display_name, preserves source order, and the joined string is
built from exactly the kept names. -/
theorem c10_extract_tags_skips (entries : List PyVal) (h : strTypedEntries entries = true) :
    extract_tags (.list entries) =
      .ok ((claimKeptNames entries).map PyVal.str,
        String.intercalate ", " (claimKeptNames entries)) := by
  have h1 : extract_tags (.list entries) =
      match pyJoinComma (tagNames entries) with
      | .ok j => .ok (tagNames entries, j)
      | .error e => .error e := rfl
  rw [h1, tagNames_strTyped entries h, pyJoinComma_map_str]

/-- Witness for C10: one kept entry, one empty-string entry, one null
entry, one entry without the key, one non-dict entry, then another kept
entry. -/
theorem c10_witness :
    extract_tags (.list [.dict [("display_name", .str "Music")],
      .dict [("display_name", .str "")],
      .dict [("display_name", .vnone)],
      .dict [("other", .int 1)],
      .str "stray",
      .dict [("display_name", .str "Party")]]) =
      .ok ([.str "Music", .str "Party"], "Music, Party") := by
  have h := c10_extract_tags_skips [.dict [("display_name", .str "Music")],
      .dict [("display_name", .str "")],
      .dict [("display_name", .vnone)],
      .dict [("other", .int 1)],
      .str "stray",
      .dict [("display_name", .str "Party")]] (by rfl)
  simpa using h

/-! ## Claim C2 (code bug) -/
/-- C2 (code bug): build_full_address reads the key "city_resolved",
which is never a column of the frame (resolve_city writes to "city", and
only after full_address has been built), so the resolved city never
appears in full_address.  On a row whose resolved city is "Dublin", the
address omits it. -/
theorem c2_full_address_omits_city :
    resolve_city c2row = .str "Dublin" ∧
    c2row "city_resolved" = .vnone ∧
    build_full_address c2row = "Main St, Dublin 6" ∧
    build_full_address c2row ≠ "Main St, Dublin 6, Dublin" := by
  refine ⟨rfl, rfl, rfl, ?_⟩
  decide

/-! ## Claim C3 (code bug) -/
/-- C3 (code bug): zero raw records normalize to a zero-column frame and
the unconditional drop_duplicates raises KeyError for the missing id
column, so the pipeline errors instead of producing an empty but
schema-correct table; moreover drop_fully_null_columns deletes every
column of any zero-row frame (the isna count equals len(df) vacuously),
so no schema could survive even with columns present. -/
theorem c3_empty_input_errors :
    clean_events (normalize_events []) = .error "KeyError: id" ∧
    (drop_fully_null_columns (Df.mk [("id", []), ("name", []), ("start_date", [])])).cols = [] := by
  exact ⟨rfl, rfl⟩

/-! ## Claim C1 -/
/-- C1 (amended): categorize_price always yields one of the four labels
with free iff the price is 0, low iff it is nonzero and below 10 (so
negative prices are labeled low too), medium iff it lies in [10, 30),
and high iff it is at least 30; and in the price block the category is
computed from the raw pre-fill price: a missing price fails every
comparison and is labeled high (never free), is_free is false for it,
while the later fill turns the price itself into 0. -/
theorem c1_categorize_price_amended :
    (∀ p : Rat,
      (categorize_price p = "free" ∨ categorize_price p = "low" ∨
        categorize_price p = "medium" ∨ categorize_price p = "high") ∧
      (categorize_price p = "free" ↔ p = 0) ∧
      (categorize_price p = "low" ↔ (p ≠ 0 ∧ p < 10)) ∧
      (categorize_price p = "medium" ↔ (10 ≤ p ∧ p < 30)) ∧
      (categorize_price p = "high" ↔ 30 ≤ p)) ∧
    categorize_price_cell PyVal.nan = "high" ∧
    isFreeCell PyVal.nan = PyVal.bool false ∧
    fillCell (PyVal.int 0) PyVal.nan = PyVal.int 0 := by
  refine ⟨?_, rfl, rfl, rfl⟩
  intro p
  by_cases h0 : p = 0
  · have hc : categorize_price p = "free" := by simp [categorize_price, h0]
    rw [hc]
    refine ⟨Or.inl rfl, by simp [h0], ?_, ?_, ?_⟩
    · constructor
      · intro h; exact absurd h (by decide)
      · rintro ⟨hne, _⟩; exact absurd h0 hne
    · constructor
      · intro h; exact absurd h (by decide)
      · rintro ⟨hge, _⟩; rw [h0] at hge; norm_num at hge
    · constructor
      · intro h; exact absurd h (by decide)
      · intro hge; rw [h0] at hge; norm_num at hge
  · by_cases h10 : p < 10
    · have hc : categorize_price p = "low" := by
        simp only [categorize_price]
        rw [if_neg (by simpa using h0), if_pos h10]
      rw [hc]
      refine ⟨Or.inr (Or.inl rfl), ?_, by simp [h0, h10], ?_, ?_⟩
      · constructor
        · intro h; exact absurd h (by decide)
        · intro h; exact absurd h h0
      · constructor
        · intro h; exact absurd h (by decide)
        · rintro ⟨hge, _⟩; linarith
      · constructor
        · intro h; exact absurd h (by decide)
        · intro hge; linarith
    · by_cases h30 : p < 30
      · have hc : categorize_price p = "medium" := by
          simp only [categorize_price]
          rw [if_neg (by simpa using h0), if_neg h10, if_pos h30]
        rw [hc]
        refine ⟨Or.inr (Or.inr (Or.inl rfl)), ?_, ?_, ?_, ?_⟩
        · constructor
          · intro h; exact absurd h (by decide)
          · intro h; subst h; exact absurd (show (0 : Rat) < 10 by norm_num) h10
        · constructor
          · intro h; exact absurd h (by decide)
          · rintro ⟨_, hlt⟩; exact absurd hlt h10
        · exact ⟨fun _ => ⟨not_lt.mp h10, h30⟩, fun _ => rfl⟩
        · constructor
          · intro h; exact absurd h (by decide)
          · intro hge; linarith
      · have hc : categorize_price p = "high" := by
          simp only [categorize_price]
          rw [if_neg (by simpa using h0), if_neg h10, if_neg h30]
        rw [hc]
        refine ⟨Or.inr (Or.inr (Or.inr rfl)), ?_, ?_, ?_, ?_⟩
        · constructor
          · intro h; exact absurd h (by decide)
          · intro h; subst h; exact absurd (show (0 : Rat) < 10 by norm_num) h10
        · constructor
          · intro h; exact absurd h (by decide)
          · rintro ⟨_, hlt⟩; exact absurd (show p < 10 by linarith) h10
        · constructor
          · intro h; exact absurd h (by decide)
          · rintro ⟨_, hlt⟩; exact absurd hlt h30
        · exact ⟨fun _ => not_lt.mp h30, fun _ => rfl⟩

/-- C1 counterexample: a negative price is categorized "low" by the
code, but the claim requires low iff 0 < p < 10. -/
theorem c1_counterexample :
    categorize_price (-1) = "low" ∧ ¬((0 : Rat) < -1 ∧ (-1 : Rat) < 10) := by
  constructor
  · rfl
  · rintro ⟨h, _⟩
    norm_num at h

/-! ## Claim C6 -/
/-- C6 (amended): every extractor returns its fixed-arity all-null or
empty result on malformed or absent input instead of raising, and
extract_from_locations, parse_address, extract_eircode and
extract_dublin_postal_district never raise at all; extract_tags never
raises provided the truthy display_name values it keeps are strings
(which the API guarantees) — but not in general, see the
counterexample. -/
theorem c6_extractors_never_raise_amended :
    (∀ v t, parsesToList v = false → extract_from_locations v t = .vnone) ∧
    (∀ v, parsesToList v = false → parse_address v = (.vnone, .vnone, .vnone)) ∧
    (∀ v, parsesToList v = false → extract_tags v = .ok ([], "")) ∧
    (∀ v, isStrVal v = false → extract_eircode v = (.vnone, .vnone, .vnone)) ∧
    (∀ v, isStrVal v = false → extract_dublin_postal_district v = Option.none) ∧
    (∀ entries, strTypedEntries entries = true →
      ∃ r, extract_tags (.list entries) = .ok r) := by
  refine ⟨?_, ?_, ?_, ?_, ?_, ?_⟩
  · intro v t h
    simp only [parsesToList] at h
    unfold extract_from_locations
    cases hp : pyParse v with
    | none => rfl
    | some data => cases data <;> simp_all
  · intro v h
    simp only [parsesToList] at h
    unfold parse_address
    cases hp : pyParse v with
    | none => rfl
    | some data =>
      rw [hp] at h
      cases data with
      | list l => exact Bool.noConfusion h
      | vnone => rfl
      | nan => rfl
      | str s => rfl
      | int n => rfl
      | float q => rfl
      | bool b => rfl
      | dt y mo d hh mi ss => rfl
      | dict d => rfl
  · intro v h
    simp only [parsesToList] at h
    unfold extract_tags
    cases hp : pyParse v with
    | none => rfl
    | some data => cases data <;> simp_all
  · intro v h
    cases v <;> simp_all [extract_eircode, isStrVal]
  · intro v h
    cases v <;> simp_all [extract_dublin_postal_district, isStrVal]
  · intro entries h
    refine ⟨((claimKeptNames entries).map PyVal.str,
      String.intercalate ", " (claimKeptNames entries)), ?_⟩
    have h1 : extract_tags (.list entries) =
        match pyJoinComma (tagNames entries) with
        | .ok j => .ok (tagNames entries, j)
        | .error e => .error e := rfl
    rw [h1, tagNames_strTyped entries h, pyJoinComma_map_str]

/-- C6 counterexample: a truthy non-string display_name survives the
filter and makes the comma join raise TypeError, so extract_tags can
raise on a native list input of a legal shape. -/
theorem c6_counterexample :
    extract_tags (.list [.dict [("display_name", .int 5)]]) =
      .error "TypeError: sequence item: expected str instance" := rfl

/-- Witness for C6 at concrete inputs of each shape. -/
theorem c6_witness :
    extract_from_locations (.int 3) "locality" = .vnone ∧
    parse_address (.str "notalist") = (.vnone, .vnone, .vnone) ∧
    extract_tags (.bool true) = .ok ([], "") ∧
    extract_eircode .vnone = (.vnone, .vnone, .vnone) ∧
    extract_dublin_postal_district (.int 5) = Option.none ∧
    (∃ r, extract_tags (.list [.dict [("display_name", .str "A")]]) = .ok r) :=
  ⟨c6_extractors_never_raise_amended.1 (.int 3) "locality" (by rfl),
   c6_extractors_never_raise_amended.2.1 (.str "notalist") (by rfl),
   c6_extractors_never_raise_amended.2.2.1 (.bool true) (by rfl),
   c6_extractors_never_raise_amended.2.2.2.1 .vnone (by rfl),
   c6_extractors_never_raise_amended.2.2.2.2.1 (.int 5) (by rfl),
   c6_extractors_never_raise_amended.2.2.2.2.2 [.dict [("display_name", .str "A")]] (by rfl)⟩

/-! ## Claim C7 -/
/-- C7 (amended): the area cluster of each row is computed from the
district column as pandas builds it.  When no row has a district the
cells stay Python None and map to "unknown"; when some rows have a
district the column upcasts to float and missing districts become NaN,
which fails the None test and every numeric comparison and lands on
"other"; a present district d is bucketed d ≤ 2 to city_centre,
d ∈ {4, 6} to south_inner, d ≥ 7 to outer_dublin, else "other" (with
districts 3 and 5 falling to "other"). -/
theorem c7_area_cluster_amended (results : List (Option Int)) :
    (inferSeries results).map (fun c => dublin_area_cluster (districtRow c)) =
      results.map (claimCluster results) := by
  unfold inferSeries
  by_cases hall : results.all (fun r => r.isSome)
  · rw [if_pos hall, List.map_map]
    apply List.map_congr_left
    intro r hr
    cases r with
    | some d => rfl
    | none =>
      have := List.all_eq_true.mp hall _ hr
      simp at this
  · rw [if_neg hall]
    by_cases hnone : results.all (fun r => r.isNone)
    · rw [if_pos hnone, List.map_map]
      apply List.map_congr_left
      intro r hr
      cases r with
      | none =>
        show dublin_area_cluster (districtRow .vnone) = claimCluster results Option.none
        rw [show dublin_area_cluster (districtRow .vnone) = "unknown" from rfl]
        simp only [claimCluster]
        rw [if_pos hnone]
      | some d =>
        have := List.all_eq_true.mp hnone _ hr
        simp at this
    · rw [if_neg hnone, List.map_map]
      apply List.map_congr_left
      intro r hr
      cases r with
      | none =>
        show dublin_area_cluster (districtRow .nan) = claimCluster results Option.none
        rw [show dublin_area_cluster (districtRow .nan) = "other" from rfl]
        simp only [claimCluster]
        rw [if_neg hnone]
      | some d =>
        show dublin_area_cluster (districtRow (.float (d : Rat))) = claimCluster results (some d)
        have hred : dublin_area_cluster (districtRow (.float (d : Rat))) =
            (if (d : Rat) ≤ 2 then "city_centre"
             else if (d : Rat) = 4 ∨ (d : Rat) = 6 then "south_inner"
             else if 7 ≤ (d : Rat) then "outer_dublin" else "other") := rfl
        have hred2 : claimCluster results (some d) =
            (if d ≤ 2 then "city_centre"
             else if d = 4 ∨ d = 6 then "south_inner"
             else if 7 ≤ d then "outer_dublin" else "other") := rfl
        rw [hred, hred2]
        by_cases h2 : d ≤ 2
        · rw [if_pos (by exact_mod_cast h2), if_pos h2]
        · rw [if_neg (by exact_mod_cast h2), if_neg h2]
          by_cases h46 : d = 4 ∨ d = 6
          · have h46q : (d : Rat) = 4 ∨ (d : Rat) = 6 := by
              rcases h46 with h | h
              · exact Or.inl (by exact_mod_cast h)
              · exact Or.inr (by exact_mod_cast h)
            rw [if_pos h46q, if_pos h46]
          · have h46q : ¬((d : Rat) = 4 ∨ (d : Rat) = 6) := by
              rintro (h | h)
              · exact h46 (Or.inl (by exact_mod_cast h))
              · exact h46 (Or.inr (by exact_mod_cast h))
            rw [if_neg h46q, if_neg h46]
            by_cases h7 : 7 ≤ d
            · rw [if_pos (by exact_mod_cast h7), if_pos h7]
            · rw [if_neg (by exact_mod_cast h7), if_neg h7]

/-- C7 counterexample: with one address carrying a district and another
without any, the district column upcasts to float, the missing district
becomes NaN, and its cluster is "other" although the claim requires
"unknown" for a null district. -/
theorem c7_counterexample :
    extract_dublin_postal_district (.str "Cork") = Option.none ∧
    (inferSeries ([PyVal.str "Dublin 4", PyVal.str "Cork"].map extract_dublin_postal_district)).map
      (fun c => dublin_area_cluster (districtRow c)) = ["south_inner", "other"] ∧
    "other" ≠ "unknown" := by
  refine ⟨rfl, rfl, by decide⟩

set_option maxRecDepth 10000 in
/-- C5 counterexample: the claim expects tag_music_event = 1, but the
normalized tag token "live music" is not a member of the music keyword
list (which contains "livemusic" and "live", not "live music"), and
membership is exact, so the flag is 0. -/
theorem c5_counterexample :
    c5_result.map (fun d => d.getCol "tag_music_event") = .ok (some [.int 0]) ∧
    ((aggregation_map.find? (fun p => p.1 == "tag_music_event")).map
      (fun p => p.2.contains "live music")) = some false ∧
    (PyVal.int 0) ≠ (PyVal.int 1) := by
  refine ⟨rfl, rfl, by simp⟩

set_option maxRecDepth 10000 in
/-- C5 (amended): on the claimed record the Final Event row has
event_weekday "Saturday", price_category "medium",
dublin_postal_district 6 and dublin_area_cluster "south_inner" as
claimed, but tag_music_event is 0, because the normalized tag
"live music" is not in the music keyword list. -/
theorem c5_end_to_end_amended :
    c5_result.map (fun d => d.getCol "event_weekday") = .ok (some [.str "Saturday"]) ∧
    c5_result.map (fun d => d.getCol "price_category") = .ok (some [.str "medium"]) ∧
    c5_result.map (fun d => d.getCol "tag_music_event") = .ok (some [.int 0]) ∧
    c5_result.map (fun d => d.getCol "dublin_postal_district") = .ok (some [.int 6]) ∧
    c5_result.map (fun d => d.getCol "dublin_area_cluster") = .ok (some [.str "south_inner"]) := by
  exact ⟨rfl, rfl, rfl, rfl, rfl⟩

/-! ## Identity lemmas for the cleaned-form no-op theorem -/
theorem stdName_fix_ne (n L : String) (h : stdName n = n) (hL : stdName L ≠ L) : n ≠ L :=
  fun e => hL (e ▸ h)

theorem dropCols_id (df : Df) (ns : List String) (h : ∀ e ∈ df.cols, e.1 ∉ ns) :
    df.dropCols ns = df := by
  obtain ⟨cols⟩ := df
  simp only [Df.dropCols, Df.mk.injEq]
  apply List.filter_eq_self.mpr
  intro e he
  simpa using h e he

theorem dropFullyNull_id (df : Df) (h : ∀ e ∈ df.cols, e.2.all isNA = false) :
    drop_fully_null_columns df = df := by
  obtain ⟨cols⟩ := df
  simp only [drop_fully_null_columns, Df.mk.injEq]
  apply List.filter_eq_self.mpr
  intro e he
  simp [h e he]

theorem hasCol_false_of_not_mem (df : Df) (n : String) (h : n ∉ df.names) :
    ¬(df.hasCol n = true) := by
  rw [hasCol_iff_mem]
  exact h

theorem getCol_unique (df : Df) (c : String × List PyVal) (n : String)
    (hnd : df.names.Nodup) (hc : c ∈ df.cols) (hcn : c.1 = n) : df.getCol n = some c.2 := by
  obtain ⟨cols⟩ := df
  induction cols with
  | nil => simp at hc
  | cons e t ih =>
    simp only [Df.names, List.map_cons, List.nodup_cons] at hnd
    rcases List.mem_cons.mp hc with hce | hct
    · subst hce
      exact getCol_cons_hit c t n hcn
    · have hen : e.1 ≠ n := by
        intro he
        exact hnd.1 (List.mem_map.mpr ⟨c, hct, by rw [hcn, he]⟩)
      rw [getCol_cons_miss e t n hen]
      exact ih hnd.2 hct

theorem setCol_self_of_getCol (df : Df) (n : String) (cs : List PyVal)
    (hnd : df.names.Nodup) (h : df.getCol n = some cs) : df.setCol n cs = df := by
  obtain ⟨cols⟩ := df
  simp only [Df.setCol]
  rw [if_pos (by simp [Df.hasCol, h])]
  simp only [Df.mk.injEq]
  apply listMapIdOn
  intro c hc
  by_cases hcn : c.1 = n
  · have := getCol_unique (Df.mk cols) c n hnd hc hcn
    rw [h] at this
    rw [if_pos (by simpa using hcn), Option.some.inj this]
  · rw [if_neg (by simpa using hcn)]

theorem std_id (df : Df) (h : ∀ e ∈ df.cols, stdName e.1 = e.1) :
    standardize_column_names df = df := by
  obtain ⟨cols⟩ := df
  simp only [standardize_column_names, Df.mk.injEq]
  apply listMapIdOn
  intro e he
  rw [h e he]

theorem fillna_id (df : Df) (n : String) (v : PyVal) (hnd : df.names.Nodup)
    (h : ∀ cs, df.getCol n = some cs → ∀ x ∈ cs, isNA x = false) :
    fillnaCol df n v = df := by
  simp only [fillnaCol]
  cases hg : df.getCol n with
  | none => rfl
  | some cs =>
    show df.setCol n (cs.map (fun x => if isNA x then v else x)) = df
    rw [show cs.map (fun x => if isNA x then v else x) = cs from
      listMapIdOn cs _ (fun x hx => by simp [h cs hg x hx])]
    exact setCol_self_of_getCol df n cs hnd hg

theorem idKeys_length (ids : List PyVal) (ks : List Scalar) (h : idKeys ids = some ks) :
    ks.length = ids.length := by
  induction ids generalizing ks with
  | nil =>
    simp only [idKeys, Option.some.injEq] at h
    subst h
    rfl
  | cons c t ih =>
    simp only [idKeys] at h
    cases hc : idKey c with
    | none => rw [hc] at h; simp at h
    | some k =>
      rw [hc] at h
      cases ht : idKeys t with
      | none => rw [ht] at h; simp at h
      | some kt =>
        rw [ht] at h
        simp only [Option.some.injEq] at h
        subst h
        simp [ih kt ht]

theorem dedup_id (df : Df) (ids : List PyVal) (ks : List Scalar)
    (hid : df.getCol "id" = some ids)
    (hkeys : idKeys ids = some ks)
    (hndks : ks.Nodup)
    (hlen : ∀ e ∈ df.cols, e.2.length = ids.length) :
    drop_duplicates_by_id df = Except.ok df := by
  simp only [drop_duplicates_by_id, hid, hkeys]
  have hmask : keepMask [] ks = List.replicate ks.length true :=
    keepMask_nodup ks [] hndks (fun k _ => by simp)
  have hcols : df.cols.map (fun c => (c.1, maskFilter (keepMask [] ks) c.2)) = df.cols := by
    apply listMapIdOn
    intro c hc
    rw [hmask, idKeys_length ids ks hkeys, ← hlen c hc, maskFilter_replicate_true]
  rw [hcols]

theorem mem_names_of (out : Df) (e : String × List PyVal) (he : e ∈ out.cols) :
    e.1 ∈ out.names :=
  List.mem_map.mpr ⟨e, he, rfl⟩

theorem name_not_mem_of_std (out : Df) (hstd : ∀ e ∈ out.cols, stdName e.1 = e.1)
    (L : String) (hL : ¬ stdName L = L) : L ∉ out.names := by
  intro hm
  obtain ⟨e, he, hee⟩ := List.mem_map.mp hm
  exact hL (hee ▸ hstd e he)

/-- C4 (amended): clean_events is not idempotent in general (a first pass can
create derived columns that are fully null, which a second pass drops), but it
is a no-op on tables already in cleaned form: standardized non-dotted column
names without the raw locations/tags/address columns, no fully-null column,
published cells already UTC-naive, declared fill-default columns free of nulls,
and hashable, pairwise-distinct id keys. -/
theorem c4_clean_noop_on_cleaned (out : Df) (ids : List PyVal) (ks : List Scalar)
    (hNodup : out.names.Nodup)
    (hstd : ∀ e ∈ out.cols, stdName e.1 = e.1)
    (hloc : "locations" ∉ out.names)
    (htags : "tags" ∉ out.names)
    (hnull : ∀ e ∈ out.cols, e.2.all isNA = false)
    (hpub : ∀ cs, out.getCol "published" = some cs → ∀ v ∈ cs, to_utc_naive_cell v = v)
    (hsum : ∀ cs, out.getCol "summary" = some cs → ∀ x ∈ cs, isNA x = false)
    (hvc : ∀ cs, out.getCol "venue_city" = some cs → ∀ x ∈ cs, isNA x = false)
    (hcity : ∀ cs, out.getCol "city" = some cs → ∀ x ∈ cs, isNA x = false)
    (hnb : ∀ cs, out.getCol "neighbourhood" = some cs → ∀ x ∈ cs, isNA x = false)
    (hid : out.getCol "id" = some ids)
    (hkeys : idKeys ids = some ks)
    (hnd : ks.Nodup)
    (hlen : ∀ e ∈ out.cols, e.2.length = ids.length) :
    clean_events out = Except.ok out := by
  have h1 : drop_fully_null_columns out = out := dropFullyNull_id out hnull
  have h2 : safe_drop out noisy_nested_columns = out := by
    rw [safe_drop]
    apply dropCols_id
    intro e he hmem
    have hs := hstd e he
    simp only [noisy_nested_columns, List.mem_cons, List.not_mem_nil, or_false] at hmem
    rcases hmem with h | h | h <;> (rw [h] at hs; exact absurd hs (by decide))
  have hAeq : cleanA out = out := by
    simp only [cleanA, h1, h2]
    rw [if_neg (hasCol_false_of_not_mem out "locations" hloc)]
  have haddr : addr_col ∉ out.names :=
    name_not_mem_of_std out hstd addr_col (by decide)
  have hAddr : cleanAddr out = Except.ok out := by
    simp only [cleanAddr]
    rw [if_neg (hasCol_false_of_not_mem out addr_col haddr)]
  have hTags : cleanTags out = Except.ok out := by
    simp only [cleanTags]
    rw [if_neg (hasCol_false_of_not_mem out "tags" htags)]
  have hs2 : safe_drop out sales_timezone_columns = out := by
    rw [safe_drop]
    apply dropCols_id
    intro e he hmem
    have hs := hstd e he
    simp only [sales_timezone_columns, List.mem_cons, List.not_mem_nil, or_false] at hmem
    rcases hmem with h | h | h | h | h | h | h <;> (rw [h] at hs; exact absurd hs (by decide))
  have hs3 : safe_drop out ["locations", "tags", addr_col] = out := by
    rw [safe_drop]
    apply dropCols_id
    intro e he hmem
    simp only [List.mem_cons, List.not_mem_nil, or_false] at hmem
    rcases hmem with h | h | h
    · exact hloc (h ▸ mem_names_of out e he)
    · exact htags (h ▸ mem_names_of out e he)
    · exact haddr (h ▸ mem_names_of out e he)
  have hpubstep :
      (if out.hasCol "published" then
        out.setCol "published" (((out.getCol "published").getD []).map to_utc_naive_cell)
      else out) = out := by
    by_cases hp : out.hasCol "published" = true
    · rw [if_pos hp]
      obtain ⟨cs, hg⟩ := Option.isSome_iff_exists.mp hp
      rw [hg]
      rw [show (Option.some cs).getD [] = cs from rfl]
      rw [show cs.map to_utc_naive_cell = cs from
        listMapIdOn cs _ (fun v hv => hpub cs hg v hv)]
      exact setCol_self_of_getCol out "published" cs hNodup hg
    · rw [if_neg hp]
  have hB : cleanB out = out := by
    simp only [cleanB, hs2, hs3, hpubstep, std_id out hstd]
    rw [fillna_id out "summary" _ hNodup hsum,
        fillna_id out "venue_city" _ hNodup hvc,
        fillna_id out "city" _ hNodup hcity,
        fillna_id out "neighbourhood" _ hNodup hnb]
  have hSteps : cleanSteps out = Except.ok out := by
    rw [cleanSteps, hAeq, hAddr]
    show (cleanTags out).map cleanB = Except.ok out
    rw [hTags]
    show Except.ok (cleanB out) = Except.ok out
    rw [hB]
  rw [clean_events, hSteps]
  exact dedup_id out ids ks hid hkeys hnd hlen

/-- C4 counterexample: one pass over c4df parses the venue address column into
three derived columns that are fully null (the cell is not a list literal), so
a second pass drops them; clean_events of its own output differs from one pass. -/
theorem c4_counterexample :
    (clean_events c4df).bind clean_events ≠ clean_events c4df := by
  intro h
  have h1 : ((clean_events c4df).bind clean_events).map (fun d => d.cols.length)
      = Except.ok 2 := by rfl
  have h2 : (clean_events c4df).map (fun d => d.cols.length) = Except.ok 4 := by rfl
  rw [h, h2] at h1
  exact absurd (Except.ok.inj h1) (by decide)

/-- Witness: a concrete cleaned-form table on which clean_events is the identity. -/
theorem c4_witness : clean_events c4w = Except.ok c4w := by
  refine c4_clean_noop_on_cleaned c4w [PyVal.str "a"] [Scalar.str "a"]
    (by decide) (by decide) (by decide) (by decide) (by decide)
    (fun cs h => Option.noConfusion h)
    (fun cs h => by
      have hcs := Option.some.inj h
      rw [← hcs]
      decide)
    (fun cs h => Option.noConfusion h)
    (fun cs h => Option.noConfusion h)
    (fun cs h => Option.noConfusion h)
    rfl rfl (by decide) (by decide)

theorem exceptBind_ok {α β : Type} (a : α) (f : α → Except String β) :
    Bind.bind (Except.ok a) f = f a := rfl

theorem exceptBind_err {α β : Type} (e : String) (f : α → Except String β) :
    Bind.bind (Except.error e : Except String α) f = Except.error e := rfl

theorem exceptBindE_ok {α β : Type} (a : α) (f : α → Except String β) :
    (Except.ok a : Except String α).bind f = f a := rfl

theorem bind_ok_inv {α β : Type} {x : Except String α} {f : α → Except String β}
    {b : β} (h : Bind.bind x f = Except.ok b) :
    ∃ a, x = Except.ok a ∧ f a = Except.ok b := by
  cases x with
  | error e => rw [exceptBind_err] at h; exact absurd h (by simp)
  | ok a => exact ⟨a, rfl, h⟩

theorem bindE_ok_inv {α β : Type} {x : Except String α} {f : α → Except String β}
    {b : β} (h : x.bind f = Except.ok b) :
    ∃ a, x = Except.ok a ∧ f a = Except.ok b := by
  cases x with
  | error e => exact absurd h (by simp [Except.bind])
  | ok a => exact ⟨a, rfl, h⟩

theorem getColE_ok_inv {df : Df} {n : String} {cs : List PyVal}
    (h : getColE df n = Except.ok cs) : df.getCol n = some cs := by
  rw [getColE] at h
  cases hg : df.getCol n with
  | none => rw [hg] at h; exact absurd h (by simp)
  | some v =>
    rw [hg] at h
    simp only [Except.ok.injEq] at h
    rw [h]

theorem getCol_setCol_neB (df : Df) (m n : String) (cs : List PyVal)
    (h : (m == n) = false) :
    (df.setCol m cs).getCol n = df.getCol n :=
  getCol_setCol_ne df m n cs (by simpa using h)

theorem dfMk_cols (df : Df) : Df.mk df.cols = df := rfl

theorem optionMap_some {α β : Type} (a : α) (f : α → β) :
    (some a).map f = some (f a) := rfl

theorem names_setCol_eq (df : Df) (m : String) (cs : List PyVal) :
    (df.setCol m cs).names = if m ∈ df.names then df.names else df.names ++ [m] := by
  obtain ⟨cols⟩ := df
  by_cases h : m ∈ (Df.mk cols).names
  · rw [if_pos h]
    simp only [Df.setCol]
    rw [if_pos ((hasCol_iff_mem _ _).mpr h)]
    simp only [Df.names, List.map_map]
    apply List.map_congr_left
    intro c _
    by_cases hc : c.1 = m
    · simp [Function.comp, hc]
    · simp [Function.comp, hc]
  · rw [if_neg h]
    simp only [Df.setCol]
    rw [if_neg (fun hh => h ((hasCol_iff_mem _ _).mp hh))]
    simp [Df.names]

theorem names_renameWith (df : Df) (m : List (String × String)) :
    (renameWith df m).names = df.names.map (renameName m) := by
  simp [renameWith, Df.names, List.map_map, Function.comp]

theorem names_std (df : Df) :
    (standardize_column_names df).names = df.names.map stdName := by
  simp [standardize_column_names, Df.names, List.map_map, Function.comp]

theorem getCol_mapNames (cols : List (String × List PyVal)) (F : String → String)
    (src tgt : String) (hsrc : F src = tgt)
    (huniq : ∀ c ∈ cols, F c.1 = tgt → c.1 = src) :
    (Df.mk (cols.map (fun c => (F c.1, c.2)))).getCol tgt = (Df.mk cols).getCol src := by
  induction cols with
  | nil => rfl
  | cons e t ih =>
    simp only [List.map_cons]
    by_cases hes : e.1 = src
    · rw [getCol_cons_hit (F e.1, e.2) _ tgt (by rw [hes, hsrc]),
          getCol_cons_hit e t src hes]
    · have hne : F e.1 ≠ tgt := fun hh => hes (huniq e (by simp) hh)
      rw [getCol_cons_miss (F e.1, e.2) _ tgt hne, getCol_cons_miss e t src hes]
      exact ih (fun c hc hh => huniq c (by simp [hc]) hh)

theorem rs_getCol (df : Df) (src tgt : String)
    (h : df.names = fe_mid_names)
    (hsrc : renameName rename_map src = tgt) (hstd : stdName tgt = tgt)
    (hu1 : ∀ x ∈ fe_mid_names, renameName rename_map x = tgt → x = src)
    (hu2 : ∀ x ∈ fe_mid_names.map (renameName rename_map), stdName x = tgt → x = tgt) :
    (standardize_column_names (renameWith df rename_map)).getCol tgt = df.getCol src := by
  have hren : (renameWith df rename_map).getCol tgt = df.getCol src := by
    show (Df.mk (df.cols.map (fun c => (renameName rename_map c.1, c.2)))).getCol tgt
      = (Df.mk df.cols).getCol src
    apply getCol_mapNames df.cols (renameName rename_map) src tgt hsrc
    intro c hc hh
    exact hu1 c.1 (h ▸ mem_names_of df c hc) hh
  have hstd2 : (standardize_column_names (renameWith df rename_map)).getCol tgt
      = (renameWith df rename_map).getCol tgt := by
    show (Df.mk ((renameWith df rename_map).cols.map (fun c => (stdName c.1, c.2)))).getCol tgt
      = (Df.mk (renameWith df rename_map).cols).getCol tgt
    apply getCol_mapNames _ stdName tgt tgt hstd
    intro c hc hh
    have hm : c.1 ∈ (renameWith df rename_map).names := mem_names_of _ c hc
    rw [names_renameWith, h] at hm
    exact hu2 c.1 hm hh
  rw [hstd2, hren]

theorem rs_getCol_id (df : Df) (h : df.names = fe_mid_names) :
    (standardize_column_names (renameWith df rename_map)).getCol "id" = df.getCol "id" :=
  rs_getCol df "id" "id" h (by decide) (by decide) (by decide) (by decide)

theorem rs_getCol_tags_list (df : Df) (h : df.names = fe_mid_names) :
    (standardize_column_names (renameWith df rename_map)).getCol "tags_list"
      = df.getCol "tags_list" :=
  rs_getCol df "tags_list" "tags_list" h (by decide) (by decide) (by decide) (by decide)

theorem rs_getCol_is_free (df : Df) (h : df.names = fe_mid_names) :
    (standardize_column_names (renameWith df rename_map)).getCol "is_free"
      = df.getCol "is_free" :=
  rs_getCol df "is_free" "is_free" h (by decide) (by decide) (by decide) (by decide)

theorem rs_getCol_is_weekend (df : Df) (h : df.names = fe_mid_names) :
    (standardize_column_names (renameWith df rename_map)).getCol "is_weekend"
      = df.getCol "is_weekend" :=
  rs_getCol df "is_weekend" "is_weekend" h (by decide) (by decide) (by decide) (by decide)

theorem rs_getCol_is_weekend_night (df : Df) (h : df.names = fe_mid_names) :
    (standardize_column_names (renameWith df rename_map)).getCol "is_weekend_night"
      = df.getCol "is_weekend_night" :=
  rs_getCol df "is_weekend_night" "is_weekend_night" h
    (by decide) (by decide) (by decide) (by decide)

theorem rs_getCol_address_line2 (df : Df) (h : df.names = fe_mid_names) :
    (standardize_column_names (renameWith df rename_map)).getCol "address_line2"
      = df.getCol "venue_line2" :=
  rs_getCol df "venue_line2" "address_line2" h (by decide) (by decide) (by decide) (by decide)

theorem rs_getCol_price (df : Df) (h : df.names = fe_mid_names) :
    (standardize_column_names (renameWith df rename_map)).getCol "price"
      = df.getCol "price" :=
  rs_getCol df "price" "price" h (by decide) (by decide) (by decide) (by decide)

theorem rs_getCol_tags_string (df : Df) (h : df.names = fe_mid_names) :
    (standardize_column_names (renameWith df rename_map)).getCol "tags_string"
      = df.getCol "tags_string" :=
  rs_getCol df "tags_string" "tags_string" h (by decide) (by decide) (by decide) (by decide)

theorem assignEircodeCols_cons (df : Df) (c : PyVal) (cs : List PyVal) :
    assignEircodeCols df (c :: cs)
      = Except.ok
          (((df.setCol "eircode" (((c :: cs).map extract_eircode).map (fun t => t.1))).setCol
              "eircode_routing_key"
              (((c :: cs).map extract_eircode).map (fun t => t.2.1))).setCol
            "eircode_unique_id"
            (((c :: cs).map extract_eircode).map (fun t => t.2.2))) := rfl

theorem fe_post_ok (df : Df) (f1 f2 f3 a2 pr ts : List PyVal) (a20 : PyVal)
    (h1 : df.getCol "is_free" = some f1)
    (h2 : df.getCol "is_weekend" = some f2)
    (h3 : df.getCol "is_weekend_night" = some f3)
    (h4 : df.getCol "address_line2" = some (a20 :: a2))
    (h5 : df.getCol "price" = some pr)
    (h6 : df.getCol "tags_string" = some ts) :
    ∃ r, fe_post df = Except.ok r := by
  simp +decide only [fe_post, getColE, h1, h2, h3, h4, h5, h6,
    assignEircodeCols_cons,
    getCol_setCol_self, getCol_setCol_neB, exceptBind_ok]
  exact ⟨_, rfl⟩

theorem ite_mem_pos {α : Type} (m : String) (L : List String) (A B : α) (h : m ∈ L) :
    (if m ∈ L then A else B) = A := if_pos h

theorem ite_mem_neg {α : Type} (m : String) (L : List String) (A B : α) (h : m ∉ L) :
    (if m ∈ L then A else B) = B := if_neg h

theorem maskFilter_keepMask_cons (k0 : Scalar) (ks : List Scalar)
    (c : PyVal) (cs : List PyVal) :
    maskFilter (keepMask [] (k0 :: ks)) (c :: cs)
      = c :: maskFilter (keepMask [k0] ks) cs := rfl

set_option maxRecDepth 10000 in
set_option maxHeartbeats 2000000 in
theorem fe_rest_ok (df : Df) (tl sdt pub ids f1 v0 pr ts : List PyVal)
    (tln : List (List PyVal)) (k0 : Scalar) (ks : List Scalar)
    (v00 : PyVal)
    (hnames : df.names = final_columns)
    (htl : df.getCol "tags_list" = some tl)
    (htln : tl.mapM safe_json_parse_and_normalize = Except.ok tln)
    (hsdt : df.getCol "start_datetime" = some sdt)
    (hpub : df.getCol "published" = some pub)
    (hid : df.getCol "id" = some ids)
    (hk : idKeys ids = some (k0 :: ks))
    (hfree : df.getCol "is_free" = some f1)
    (hvl2 : df.getCol "venue_line2" = some (v00 :: v0))
    (hpr : df.getCol "price" = some pr)
    (hts : df.getCol "tags_string" = some ts) :
    ∃ r, fe_rest df = Except.ok r := by
  simp +decide only [fe_rest, fe_mid, fe_post, getColE,
    htl, htln, hsdt, hpub, hid, hk, hfree, hvl2, hpr, hts,
    maskFilter_keepMask_cons, assignEircodeCols_cons,
    aggregation_map, List.foldl_cons, List.foldl_nil,
    getCol_setCol_self, getCol_setCol_neB,
    names_setCol_eq, hnames, final_columns, fe_mid_names,
    ite_mem_pos, ite_mem_neg,
    rs_getCol_id, rs_getCol_tags_list, rs_getCol_is_free,
    rs_getCol_is_weekend, rs_getCol_is_weekend_night,
    rs_getCol_address_line2, rs_getCol_price, rs_getCol_tags_string,
    drop_duplicates_by_id, getCol_mapCells, dfMk_cols, optionMap_some,
    exceptBind_ok, exceptBindE_ok]
  exact ⟨_, rfl⟩

theorem exceptPure {α : Type} (a : α) :
    (pure a : Except String α) = Except.ok a := rfl

theorem colAddSpace_ok (cs : List PyVal) (h : cs.all strOrNA = true) :
    ∃ out, colAddSpace cs = Except.ok out ∧ out.all strOrNan = true := by
  induction cs with
  | nil => exact ⟨[], rfl, rfl⟩
  | cons a t ih =>
    simp only [List.all_cons, Bool.and_eq_true] at h
    obtain ⟨out, ho, hp⟩ := ih h.2
    have ho2 : List.mapM cellAddSpace t = Except.ok out := ho
    cases a with
    | str s =>
      refine ⟨.str (s ++ " ") :: out, ?_, ?_⟩
      · simp only [colAddSpace, List.mapM_cons, cellAddSpace, ho2, exceptBind_ok, exceptPure]
      · simp only [List.all_cons, Bool.and_eq_true]
        exact ⟨rfl, hp⟩
    | vnone =>
      refine ⟨.nan :: out, ?_, ?_⟩
      · simp only [colAddSpace, List.mapM_cons, cellAddSpace, ho2, exceptBind_ok, exceptPure]
      · simp only [List.all_cons, Bool.and_eq_true]
        exact ⟨rfl, hp⟩
    | nan =>
      refine ⟨.nan :: out, ?_, ?_⟩
      · simp only [colAddSpace, List.mapM_cons, cellAddSpace, ho2, exceptBind_ok, exceptPure]
      · simp only [List.all_cons, Bool.and_eq_true]
        exact ⟨rfl, hp⟩
    | int n => exact Bool.noConfusion h.1
    | float q => exact Bool.noConfusion h.1
    | bool b => exact Bool.noConfusion h.1
    | dt y mo d hh mi ss => exact Bool.noConfusion h.1
    | list l => exact Bool.noConfusion h.1
    | dict l => exact Bool.noConfusion h.1

theorem colAdd2_ok (as_ bs : List PyVal) (ha : as_.all strOrNan = true)
    (hb : bs.all strOrNA = true) : ∃ out, colAdd2 as_ bs = Except.ok out := by
  induction as_ generalizing bs with
  | nil => exact ⟨[], rfl⟩
  | cons a t ih =>
    cases bs with
    | nil => exact ⟨[], rfl⟩
    | cons b u =>
      simp only [List.all_cons, Bool.and_eq_true] at ha hb
      obtain ⟨out, ho⟩ := ih u ha.2 hb.2
      have hcell : ∃ v, cellAdd2 a b = Except.ok v := by
        cases a with
        | str x =>
          cases b with
          | str y => exact ⟨.str (x ++ y), rfl⟩
          | vnone => exact ⟨.nan, rfl⟩
          | nan => exact ⟨.nan, rfl⟩
          | int n => exact Bool.noConfusion hb.1
          | float q => exact Bool.noConfusion hb.1
          | bool bb => exact Bool.noConfusion hb.1
          | dt y mo d hh mi ss => exact Bool.noConfusion hb.1
          | list l => exact Bool.noConfusion hb.1
          | dict l => exact Bool.noConfusion hb.1
        | nan => exact ⟨.nan, rfl⟩
        | vnone => exact Bool.noConfusion ha.1
        | int n => exact Bool.noConfusion ha.1
        | float q => exact Bool.noConfusion ha.1
        | bool bb => exact Bool.noConfusion ha.1
        | dt y mo d hh mi ss => exact Bool.noConfusion ha.1
        | list l => exact Bool.noConfusion ha.1
        | dict l => exact Bool.noConfusion ha.1
      obtain ⟨v, hv⟩ := hcell
      exact ⟨v :: out, by simp only [colAdd2, hv, ho, exceptBind_ok, exceptPure]⟩

theorem fe_phase1_ok (df : Df) (sd st ed et pub tick : List PyVal)
    (hsd : df.getCol "start_date" = some sd) (hsdv : sd.all strOrNA = true)
    (hst : df.getCol "start_time" = some st) (hstv : st.all strOrNA = true)
    (hed : df.getCol "end_date" = some ed) (hedv : ed.all strOrNA = true)
    (het : df.getCol "end_time" = some et) (hetv : et.all strOrNA = true)
    (hpub : df.getCol "published" = some pub)
    (htick : df.getCol "ticket_availability_minimum_ticket_price_major_value" = some tick) :
    ∃ p, fe_phase1 df = Except.ok p
      ∧ (∀ n, n ∉ phase1_set_names → p.getCol n = df.getCol n)
      ∧ (∀ n, n ∈ phase1_set_names → (p.getCol n).isSome = true) := by
  obtain ⟨c1, hc1, hc1p⟩ := colAddSpace_ok sd hsdv
  obtain ⟨c2, hc2⟩ := colAdd2_ok c1 st hc1p hstv
  obtain ⟨e1, he1, he1p⟩ := colAddSpace_ok ed hedv
  obtain ⟨e2, he2⟩ := colAdd2_ok e1 et he1p hetv
  refine ⟨(((((((df.setCol "start_datetime" (c2.map to_datetime_cell)).setCol
      "end_datetime" (e2.map to_datetime_cell)).setCol
      "duration_hours"
      (List.zipWith durationCell (e2.map to_datetime_cell) (c2.map to_datetime_cell))).setCol
      "published" (pub.map to_datetime_cell)).setCol
      "price" (tick.map to_numeric_cell)).setCol
      "is_free" ((tick.map to_numeric_cell).map isFreeCell)).setCol
      "price_category"
      ((tick.map to_numeric_cell).map (fun c => PyVal.str (categorize_price_cell c)))),
    ?h1, ?h2, ?h3⟩
  case h1 =>
    simp +decide only [fe_phase1, getColE, hsd, hst, hed, het, hpub, htick,
      hc1, hc2, he1, he2, getCol_setCol_self, getCol_setCol_neB, exceptBind_ok]
    rfl
  case h2 =>
    intro n hn
    simp only [phase1_set_names, List.mem_cons, List.not_mem_nil, or_false, not_or] at hn
    obtain ⟨n1, n2, n3, n4, n5, n6, n7⟩ := hn
    rw [getCol_setCol_ne _ _ _ _ (fun hh => n7 hh.symm),
        getCol_setCol_ne _ _ _ _ (fun hh => n6 hh.symm),
        getCol_setCol_ne _ _ _ _ (fun hh => n5 hh.symm),
        getCol_setCol_ne _ _ _ _ (fun hh => n4 hh.symm),
        getCol_setCol_ne _ _ _ _ (fun hh => n3 hh.symm),
        getCol_setCol_ne _ _ _ _ (fun hh => n2 hh.symm),
        getCol_setCol_ne _ _ _ _ (fun hh => n1 hh.symm)]
  case h3 =>
    intro n hn
    simp only [phase1_set_names, List.mem_cons, List.not_mem_nil, or_false] at hn
    rcases hn with h | h | h | h | h | h | h <;> subst h <;>
      simp +decide only [getCol_setCol_self, getCol_setCol_neB, Option.isSome_some]

theorem fe_project_ok (p : Df) (h : ∀ c ∈ final_columns, p.hasCol c = true) :
    fe_project p = Except.ok (projOf (fun c => (p.getCol c).getD [])) := by
  have hfil : final_columns.filter (fun c => !(p.hasCol c)) = [] := by
    rw [List.filter_eq_nil_iff]
    intro a ha
    simp [h a ha]
  simp [fe_project, hfil, projOf]

theorem fe_project_ok_inv {p pj : Df} (h : fe_project p = Except.ok pj) :
    ∀ c ∈ final_columns, p.hasCol c = true := by
  intro c hc
  simp only [fe_project] at h
  by_cases hM : (final_columns.filter (fun c => !(p.hasCol c))).isEmpty = true
  · have hnil : final_columns.filter (fun c => !(p.hasCol c)) = [] :=
      List.isEmpty_iff.mp hM
    have h2 := List.filter_eq_nil_iff.mp hnil c hc
    simpa using h2
  · rw [if_neg hM] at h
    exact absurd h (by simp)

theorem getCol_length (df : Df) (n : String) (cs : List PyVal)
    (hlen : ∀ e ∈ df.cols, e.2.length = df.nrows)
    (h : df.getCol n = some cs) : cs.length = df.nrows := by
  simp only [Df.getCol] at h
  cases hf : df.cols.find? (fun c => c.1 == n) with
  | none => rw [hf] at h; exact absurd h (by simp)
  | some e =>
    rw [hf] at h
    have he : e.2 = cs := Option.some.inj h
    rw [← he]
    exact hlen e (List.mem_of_find?_eq_some hf)

/-- C8 (amended): on a nonempty table (equal positive column lengths, the
pandas frame invariant) with well-formed cell values (date/time cells are
strings or missing, tags_list cells parse and normalize, id cells are
hashable), the feature engineering stage succeeds if and only if every
structurally required column is present in the input table.  Without the
value conditions the stage can raise on a single malformed row value, and
on a zero-row table it always raises ValueError at the three-column
eircode assignment, so the original claim is too strong. -/
theorem c8_error_iff_missing_amended (df : Df)
    (hlen : ∀ e ∈ df.cols, e.2.length = df.nrows)
    (hnr : df.nrows ≠ 0)
    (hdv : ∀ n ∈ (["start_date", "start_time", "end_date", "end_time"] : List String),
      ∀ cs, df.getCol n = some cs → cs.all strOrNA = true)
    (htlv : ∀ cs, df.getCol "tags_list" = some cs →
      ∃ tln, cs.mapM safe_json_parse_and_normalize = Except.ok tln)
    (hidv : ∀ cs, df.getCol "id" = some cs → ∃ ks, idKeys cs = some ks) :
    (∃ out, engineer_features df = Except.ok out)
      ↔ (∀ c ∈ required_columns, df.hasCol c = true) := by
  constructor
  · rintro ⟨out, hout⟩
    simp only [engineer_features] at hout
    obtain ⟨pj, hAB, _⟩ := bindE_ok_inv hout
    obtain ⟨p, hp, hproj⟩ := bindE_ok_inv hAB
    simp only [fe_phase1] at hp
    obtain ⟨sd, hsd, hp⟩ := bind_ok_inv hp
    obtain ⟨st, hst, hp⟩ := bind_ok_inv hp
    obtain ⟨c1, hc1, hp⟩ := bind_ok_inv hp
    obtain ⟨c2, hc2, hp⟩ := bind_ok_inv hp
    obtain ⟨ed, hed, hp⟩ := bind_ok_inv hp
    obtain ⟨et, het, hp⟩ := bind_ok_inv hp
    obtain ⟨e1, he1, hp⟩ := bind_ok_inv hp
    obtain ⟨e2, he2, hp⟩ := bind_ok_inv hp
    obtain ⟨pub, hpub, hp⟩ := bind_ok_inv hp
    obtain ⟨tick, htick, hp⟩ := bind_ok_inv hp
    have hpeq := Except.ok.inj hp
    subst hpeq
    have Hsd := getColE_ok_inv hsd
    have Hst := getColE_ok_inv hst
    have Hed := getColE_ok_inv hed
    rw [getCol_setCol_neB _ _ _ _ (by decide)] at Hed
    have Het := getColE_ok_inv het
    rw [getCol_setCol_neB _ _ _ _ (by decide)] at Het
    have Hpub := getColE_ok_inv hpub
    rw [getCol_setCol_neB _ _ _ _ (by decide),
        getCol_setCol_neB _ _ _ _ (by decide),
        getCol_setCol_neB _ _ _ _ (by decide)] at Hpub
    have Htick := getColE_ok_inv htick
    rw [getCol_setCol_neB _ _ _ _ (by decide),
        getCol_setCol_neB _ _ _ _ (by decide),
        getCol_setCol_neB _ _ _ _ (by decide),
        getCol_setCol_neB _ _ _ _ (by decide)] at Htick
    have hpcols := fe_project_ok_inv hproj
    have hkeep : ∀ c, c ∈ final_columns → c ∉ phase1_set_names → df.hasCol c = true := by
      intro c hc hn
      have h1 := hpcols c hc
      simp only [phase1_set_names, List.mem_cons, List.not_mem_nil, or_false, not_or] at hn
      obtain ⟨m1, m2, m3, m4, m5, m6, m7⟩ := hn
      simp only [Df.hasCol] at h1 ⊢
      rw [getCol_setCol_ne _ _ _ _ (fun hh => m7 hh.symm),
          getCol_setCol_ne _ _ _ _ (fun hh => m6 hh.symm),
          getCol_setCol_ne _ _ _ _ (fun hh => m5 hh.symm),
          getCol_setCol_ne _ _ _ _ (fun hh => m4 hh.symm),
          getCol_setCol_ne _ _ _ _ (fun hh => m3 hh.symm),
          getCol_setCol_ne _ _ _ _ (fun hh => m2 hh.symm),
          getCol_setCol_ne _ _ _ _ (fun hh => m1 hh.symm)] at h1
      exact h1
    intro c hc
    simp only [required_columns, List.mem_cons, List.not_mem_nil, or_false] at hc
    rcases hc with h|h|h|h|h|h|h|h|h|h|h|h|h|h|h|h|h|h <;> subst h <;>
      first
        | exact hkeep _ (by decide) (by decide)
        | simp [Df.hasCol, Hsd, Hst, Hed, Het, Hpub, Htick]
  · intro hall
    have hget : ∀ c ∈ required_columns, ∃ v, df.getCol c = some v := by
      intro c hc
      exact Option.isSome_iff_exists.mp (hall c hc)
    obtain ⟨sd, hsd⟩ := hget "start_date" (by decide)
    obtain ⟨st, hst⟩ := hget "start_time" (by decide)
    obtain ⟨ed, hed⟩ := hget "end_date" (by decide)
    obtain ⟨et, het⟩ := hget "end_time" (by decide)
    obtain ⟨pub, hpub⟩ := hget "published" (by decide)
    obtain ⟨tick, htick⟩ :=
      hget "ticket_availability_minimum_ticket_price_major_value" (by decide)
    obtain ⟨tl, htl⟩ := hget "tags_list" (by decide)
    obtain ⟨ids, hid⟩ := hget "id" (by decide)
    obtain ⟨vl2, hvl2⟩ := hget "venue_line2" (by decide)
    obtain ⟨ts, hts⟩ := hget "tags_string" (by decide)
    obtain ⟨tln, htln⟩ := htlv tl htl
    obtain ⟨ks, hk⟩ := hidv ids hid
    obtain ⟨v00, v0, hveq⟩ : ∃ a l, vl2 = a :: l := by
      cases vl2 with
      | nil => exact absurd (getCol_length df "venue_line2" [] hlen hvl2).symm hnr
      | cons a l => exact ⟨a, l, rfl⟩
    subst hveq
    obtain ⟨k0, kst, hkeq⟩ : ∃ a l, ks = a :: l := by
      cases ks with
      | nil =>
        have h1 := idKeys_length ids [] hk
        have h2 := getCol_length df "id" ids hlen hid
        rw [← h2, ← h1] at hnr
        exact absurd rfl hnr
      | cons a l => exact ⟨a, l, rfl⟩
    subst hkeq
    obtain ⟨p, hp, hkeep, hnew⟩ :=
      fe_phase1_ok df sd st ed et pub tick
        hsd (hdv "start_date" (by decide) sd hsd)
        hst (hdv "start_time" (by decide) st hst)
        hed (hdv "end_date" (by decide) ed hed)
        het (hdv "end_time" (by decide) et het)
        hpub htick
    have hpcols : ∀ c ∈ final_columns, p.hasCol c = true := by
      intro c hc
      by_cases hcn : c ∈ phase1_set_names
      · have := hnew c hcn
        simpa [Df.hasCol] using this
      · have htrans : ∀ x ∈ final_columns, x ∉ phase1_set_names → x ∈ required_columns := by
          decide
        have h2 := hall c (htrans c hc hcn)
        have h3 := hkeep c hcn
        simp only [Df.hasCol] at h2 ⊢
        rw [h3]
        exact h2
    have hptl : p.getCol "tags_list" = some tl := by
      rw [hkeep _ (by decide)]
      exact htl
    have hpid : p.getCol "id" = some ids := by
      rw [hkeep _ (by decide)]
      exact hid
    have hpvl2 : p.getCol "venue_line2" = some (v00 :: v0) := by
      rw [hkeep _ (by decide)]
      exact hvl2
    have hpts : p.getCol "tags_string" = some ts := by
      rw [hkeep _ (by decide)]
      exact hts
    obtain ⟨sdt, hsdt⟩ := Option.isSome_iff_exists.mp (hnew "start_datetime" (by decide))
    obtain ⟨pup, hpup⟩ := Option.isSome_iff_exists.mp (hnew "published" (by decide))
    obtain ⟨fr, hfr⟩ := Option.isSome_iff_exists.mp (hnew "is_free" (by decide))
    obtain ⟨prc, hprc⟩ := Option.isSome_iff_exists.mp (hnew "price" (by decide))
    simp only [engineer_features, hp, exceptBindE_ok, fe_project_ok p hpcols]
    apply fe_rest_ok (projOf (fun c => (p.getCol c).getD []))
      tl sdt pup ids fr v0 prc ts tln k0 kst v00
    · rfl
    · show some ((p.getCol "tags_list").getD []) = some tl
      rw [hptl]
      rfl
    · exact htln
    · show some ((p.getCol "start_datetime").getD []) = some sdt
      rw [hsdt]
      rfl
    · show some ((p.getCol "published").getD []) = some pup
      rw [hpup]
      rfl
    · show some ((p.getCol "id").getD []) = some ids
      rw [hpid]
      rfl
    · exact hk
    · show some ((p.getCol "is_free").getD []) = some fr
      rw [hfr]
      rfl
    · show some ((p.getCol "venue_line2").getD []) = some (v00 :: v0)
      rw [hpvl2]
      rfl
    · show some ((p.getCol "price").getD []) = some prc
      rw [hprc]
      rfl
    · show some ((p.getCol "tags_string").getD []) = some ts
      rw [hpts]
      rfl

set_option maxRecDepth 10000 in
/-- C8 counterexample: every required column is present, yet the stage
raises on the malformed in-row value; and on a zero-row table with every
required column the stage raises at the three-column eircode assignment. -/
theorem c8_counterexample :
    ((∀ c ∈ required_columns, c8df.hasCol c = true)
      ∧ engineer_features c8df = Except.error "TypeError: object is not iterable")
    ∧ ((∀ c ∈ required_columns, c8df0.hasCol c = true)
      ∧ engineer_features c8df0
          = Except.error "ValueError: Columns must be same length as key") :=
  ⟨⟨by decide, by rfl⟩, ⟨by decide, by rfl⟩⟩

theorem c8_witness : ∃ out, engineer_features c8w = Except.ok out :=
  (c8_error_iff_missing_amended c8w (by decide) (by decide)
    (by
      intro n hn cs h
      rcases (show n = "start_date" ∨ n = "start_time" ∨ n = "end_date" ∨ n = "end_time"
          by simpa using hn) with h1 | h1 | h1 | h1 <;>
        subst h1 <;> (rw [← Option.some.inj h]; decide))
    (fun cs h => by
      rw [← Option.some.inj h]
      exact ⟨_, rfl⟩)
    (fun cs h => by
      rw [← Option.some.inj h]
      exact ⟨_, rfl⟩)).mpr (by decide)

end EventPipeline
